import Mathlib

/-!
# Keypad firmware core: debounced matrix scan, layer-aware report, idle timer

A shallow embedding of `Keyboard.c`.

* C arrays indexed by small integers are total functions on `Nat`; only the
  indices below the array bounds are meaningful.
* `uint8_t` and `uint16_t` arithmetic is `Nat` arithmetic followed by an explicit
  `% 256` or `% 65536`.
* Hardware and the USB library are the environment: a pin read is an input of
  `scan_matrix`, the endpoint's readiness is an input of `SendNextReport`, and an
  uninitialised stack buffer is an arbitrary input value.
-/

namespace Macropad

/-! ## Configuration constants (lines 52-55) -/

def DEBOUNCE_THRESHOLD : Nat := 10

def LAYER_SWITCH : Nat := 0x00

def NUM_COLS : Nat := 3

def NUM_ROWS : Nat := 2

/-- Bit number `pin_n` of each entry of `COLS` (`PIN_DEF(B, 6)`, `PIN_DEF(C, 6)`,
`PIN_DEF(C, 7)`). -/
def COLS_pin_n (col : Nat) : Nat :=
  match col with
  | 0 => 6
  | 1 => 6
  | _ => 7

/-- The ten HID usage codes named by the key table. They are macros of the USB
library's HID class header, which is not among the sources, so the table takes
them as a parameter. -/
structure Scancodes where
  HID_KEYBOARD_SC_1_AND_EXCLAMATION : Nat
  HID_KEYBOARD_SC_2_AND_AT : Nat
  HID_KEYBOARD_SC_3_AND_HASHMARK : Nat
  HID_KEYBOARD_SC_4_AND_DOLLAR : Nat
  HID_KEYBOARD_SC_5_AND_PERCENTAGE : Nat
  HID_KEYBOARD_SC_6_AND_CARET : Nat
  HID_KEYBOARD_SC_7_AND_AMPERSAND : Nat
  HID_KEYBOARD_SC_8_AND_ASTERISK : Nat
  HID_KEYBOARD_SC_9_AND_OPENING_PARENTHESIS : Nat
  HID_KEYBOARD_SC_0_AND_CLOSING_PARENTHESIS : Nat

/-- The table `keycodes[layer][row][col]` (lines 73-78). -/
def keycodes (sc : Scancodes) (layer row col : Nat) : Nat :=
  match layer, row, col with
  | 0, 0, 0 => LAYER_SWITCH
  | 0, 0, 1 => sc.HID_KEYBOARD_SC_4_AND_DOLLAR
  | 0, 0, 2 => sc.HID_KEYBOARD_SC_5_AND_PERCENTAGE
  | 0, 1, 0 => sc.HID_KEYBOARD_SC_1_AND_EXCLAMATION
  | 0, 1, 1 => sc.HID_KEYBOARD_SC_2_AND_AT
  | 0, 1, 2 => sc.HID_KEYBOARD_SC_3_AND_HASHMARK
  | 1, 0, 0 => LAYER_SWITCH
  | 1, 0, 1 => sc.HID_KEYBOARD_SC_9_AND_OPENING_PARENTHESIS
  | 1, 0, 2 => sc.HID_KEYBOARD_SC_0_AND_CLOSING_PARENTHESIS
  | 1, 1, 0 => sc.HID_KEYBOARD_SC_6_AND_CARET
  | 1, 1, 1 => sc.HID_KEYBOARD_SC_7_AND_AMPERSAND
  | 1, 1, 2 => sc.HID_KEYBOARD_SC_8_AND_ASTERISK
  | _, _, _ => 0

/-! ## Data -/

/-- The boot-protocol keyboard report: a modifier byte, a reserved byte and six
key code slots. The struct is declared by the USB library's HID class header;
`CreateKeyboardReport` clears the whole struct and stores into `KeyCode[0..5]`. -/
structure USB_KeyboardReport_Data_t where
  Modifier : Nat
  Reserved : Nat
  KeyCode : Fin 6 → Nat

/-- The mutable globals of `Keyboard.c`, together with the function-local static
`PrevKeyboardReportData` of `SendNextReport`. -/
structure State where
  UsingReportProtocol : Bool
  IdleCount : Nat
  IdleMSRemaining : Nat
  debounce_keys : Nat → Nat → Nat
  PrevKeyboardReportData : USB_KeyboardReport_Data_t

/-- The all-zero report: what `memset(ReportData, 0, sizeof ...)` leaves, and the
initial value of a static report. -/
def zero_report : USB_KeyboardReport_Data_t :=
  { Modifier := 0, Reserved := 0, KeyCode := fun _ => 0 }

/-- The state after static initialisation (lines 39, 44, 50, 69, 333). -/
def initial_state : State :=
  { UsingReportProtocol := true
    IdleCount := 500
    IdleMSRemaining := 0
    debounce_keys := fun _ _ => 0
    PrevKeyboardReportData := zero_report }

/-! ## Debounce matrix and scan (lines 110-150) -/

/-- The function `is_key_pressed(uint8_t row, uint8_t col)`: both arguments are
converted to `uint8_t` at the call. -/
def is_key_pressed (dk : Nat → Nat → Nat) (row col : Nat) : Bool :=
  dk (row % 256) (col % 256) == DEBOUNCE_THRESHOLD

/-- The assignment `debounce_keys[row][col] = v`. -/
def store_counter (dk : Nat → Nat → Nat) (row col v : Nat) : Nat → Nat → Nat :=
  fun r c => if r = row ∧ c = col then v else dk r c

/-- The raw sample of line 131: `(*COLS[col].pin & (1 << COLS[col].pin_n)) == 0`.
`pins row col` is the byte read from the column's input register while row
`row` is driven low. -/
def column_low (pins : Nat → Nat → Nat) (row col : Nat) : Bool :=
  (pins row col &&& (1 <<< COLS_pin_n col)) == 0

/-- The body of the inner loop of `scan_matrix` (lines 130-144). -/
def scan_matrix_cell (pins : Nat → Nat → Nat) (dk : Nat → Nat → Nat) (row col : Nat) :
    Nat → Nat → Nat :=
  let pressed := column_low pins row col
  if pressed then
    if dk row col < DEBOUNCE_THRESHOLD then
      store_counter dk row col ((dk row col + 1) % 256)
    else dk
  else if dk row col > 0 then
    store_counter dk row col ((dk row col + 255) % 256)
  else dk

/-- The inner loop of `scan_matrix`: `for (col = 0; col < NUM_COLS; col++)`. -/
def scan_matrix_row (pins : Nat → Nat → Nat) (dk : Nat → Nat → Nat) (row : Nat) :
    Nat → Nat → Nat :=
  (List.range NUM_COLS).foldl (fun d col => scan_matrix_cell pins d row col) dk

/-- The function `scan_matrix`: `for (row = 0; row < NUM_ROWS; row++)`. Driving
the row line and the settle delay act on the hardware only; what they make the
column pins read is the input `pins`. -/
def scan_matrix (pins : Nat → Nat → Nat) (dk : Nat → Nat → Nat) : Nat → Nat → Nat :=
  (List.range NUM_ROWS).foldl (fun d row => scan_matrix_row pins d row) dk

/-! ## Report builder (lines 303-328) -/

/-- The locals of `CreateKeyboardReport` that the loop updates. -/
structure BuildState where
  ReportData : USB_KeyboardReport_Data_t
  UsedKeyCodes : Nat

/-- The assignment `ReportData->KeyCode[slot] = v`. -/
def KeyCode_store (r : USB_KeyboardReport_Data_t) (slot v : Nat) :
    USB_KeyboardReport_Data_t :=
  { r with KeyCode := fun i => if i.val = slot then v else r.KeyCode i }

/-- The call `memset(ReportData, 0, sizeof(USB_KeyboardReport_Data_t))`. -/
def memset_zero (_ReportData : USB_KeyboardReport_Data_t) : USB_KeyboardReport_Data_t :=
  zero_report

/-- Line 306: `active_layer = is_key_pressed(0, 0) ? 1 : 0`. -/
def active_layer (dk : Nat → Nat → Nat) : Nat :=
  if is_key_pressed dk 0 0 then 1 else 0

/-- The body of the inner loop of `CreateKeyboardReport` (lines 317-325), over a
key table `kc`. `row` and `col` are `int` there and are narrowed only in the call
of `is_key_pressed`; `UsedKeyCodes` is a `uint8_t`. -/
def CreateKeyboardReport_body (kc : Nat → Nat → Nat → Nat) (dk : Nat → Nat → Nat)
    (layer : Nat) (st : BuildState) (row col : Nat) : BuildState :=
  if is_key_pressed dk row col && decide (st.UsedKeyCodes < 6) then
    if row = 0 ∧ col = 0 then st
    else
      { ReportData := KeyCode_store st.ReportData st.UsedKeyCodes (kc layer row col)
        UsedKeyCodes := (st.UsedKeyCodes + 1) % 256 }
  else st

/-- The two nested loops of `CreateKeyboardReport` (lines 311-327) for a matrix of
`R` rows and `C` columns, started in `st`. -/
def CreateKeyboardReport_loop (R C : Nat) (kc : Nat → Nat → Nat → Nat)
    (dk : Nat → Nat → Nat) (layer : Nat) (st : BuildState) : BuildState :=
  (List.range R).foldl
    (fun st1 row =>
      (List.range C).foldl (fun st2 col => CreateKeyboardReport_body kc dk layer st2 row col) st1)
    st

/-- The whole of `CreateKeyboardReport` with `NUM_ROWS`, `NUM_COLS` and the key
table as parameters; the result keeps the final `UsedKeyCodes`. `ReportData` is
the prior content of the caller's buffer. -/
def CreateKeyboardReport_sized (R C : Nat) (kc : Nat → Nat → Nat → Nat)
    (dk : Nat → Nat → Nat) (ReportData : USB_KeyboardReport_Data_t) : BuildState :=
  CreateKeyboardReport_loop R C kc dk (active_layer dk)
    { ReportData := memset_zero ReportData, UsedKeyCodes := 0 }

/-- The function `CreateKeyboardReport` of the shipped firmware: the content of
`*ReportData` on return. -/
def CreateKeyboardReport (sc : Scancodes) (dk : Nat → Nat → Nat)
    (ReportData : USB_KeyboardReport_Data_t) : USB_KeyboardReport_Data_t :=
  (CreateKeyboardReport_sized NUM_ROWS NUM_COLS (keycodes sc) dk ReportData).ReportData

/-! ## Idle timer, send decision and host requests (lines 202-297, 331-381) -/

/-- The handler `EVENT_USB_Device_StartOfFrame`: `if (IdleMSRemaining)
IdleMSRemaining--;` on a `uint16_t`. -/
def EVENT_USB_Device_StartOfFrame (s : State) : State :=
  if s.IdleMSRemaining ≠ 0 then
    { s with IdleMSRemaining := (s.IdleMSRemaining + 65535) % 65536 }
  else s

/-- The eight bytes of a report in memory order. -/
def report_bytes (r : USB_KeyboardReport_Data_t) : List Nat :=
  r.Modifier :: r.Reserved :: List.ofFn r.KeyCode

/-- The library call `memcmp(a, b, n)` on byte sequences: zero when the first `n`
bytes agree, otherwise the difference of the first bytes that differ. -/
def memcmp : List Nat → List Nat → Nat → Int
  | a :: as, b :: bs, n + 1 => if a = b then memcmp as bs n else (a : Int) - (b : Int)
  | _, _, _ => 0

/-- The value of `sizeof(USB_KeyboardReport_Data_t)`. -/
def sizeof_report : Nat := 8

/-- What one call of `SendNextReport` leaves behind: the globals, the local
`SendReport`, and the report handed to `Endpoint_Write_Stream_LE`, if any. -/
structure SendOutcome where
  state : State
  SendReport : Bool
  written : Option USB_KeyboardReport_Data_t

/-- The function `SendNextReport` (lines 331-370). `stack` is the indeterminate
content of the local `KeyboardReportData`, `ready` the value returned by
`Endpoint_IsReadWriteAllowed()`. -/
def SendNextReport (sc : Scancodes) (s : State) (stack : USB_KeyboardReport_Data_t)
    (ready : Bool) : SendOutcome :=
  let KeyboardReportData := CreateKeyboardReport sc s.debounce_keys stack
  let decided : State × Bool :=
    if s.IdleCount ≠ 0 ∧ s.IdleMSRemaining = 0 then
      ({ s with IdleMSRemaining := s.IdleCount }, true)
    else
      (s, decide (memcmp (report_bytes s.PrevKeyboardReportData)
        (report_bytes KeyboardReportData) sizeof_report ≠ 0))
  if ready && decided.2 then
    { state := { decided.1 with PrevKeyboardReportData := KeyboardReportData }
      SendReport := decided.2
      written := some KeyboardReportData }
  else
    { state := decided.1, SendReport := decided.2, written := none }

/-- The function `HID_Task`: nothing unless the device is configured. -/
def HID_Task (sc : Scancodes) (s : State) (configured : Bool)
    (stack : USB_KeyboardReport_Data_t) (ready : Bool) : State :=
  if configured then (SendNextReport sc s stack ready).state else s

/-- The `HID_REQ_GetReport` case (lines 207-222): the report written to the
control endpoint. -/
def HID_REQ_GetReport (sc : Scancodes) (s : State) (stack : USB_KeyboardReport_Data_t) :
    USB_KeyboardReport_Data_t :=
  CreateKeyboardReport sc s.debounce_keys stack

/-- The `HID_REQ_SetProtocol` case (line 260). -/
def HID_REQ_SetProtocol (s : State) (wValue : Nat) : State :=
  { s with UsingReportProtocol := decide (wValue ≠ 0) }

/-- The `HID_REQ_SetIdle` case (line 271), `wValue` and `IdleCount` being 16 bits
wide. -/
def HID_REQ_SetIdle (s : State) (wValue : Nat) : State :=
  { s with IdleCount := ((wValue &&& 0xFF00) >>> 6) % 65536 }

/-- The `HID_REQ_GetIdle` case (line 281): the byte given to `Endpoint_Write_8`. -/
def HID_REQ_GetIdle (s : State) : Nat :=
  (s.IdleCount >>> 2) % 256

/-- The operations that act on the globals: the two calls of the main loop, the
start-of-frame interrupt, and the host's control requests. -/
inductive Event where
  | scan (pins : Nat → Nat → Nat)
  | hid_task (configured : Bool) (stack : USB_KeyboardReport_Data_t) (ready : Bool)
  | start_of_frame
  | get_report (stack : USB_KeyboardReport_Data_t)
  | set_protocol (wValue : Nat)
  | set_idle (wValue : Nat)
  | other_request

/-- The effect of one operation on the globals. `CreateKeyboardReport` (called by
`get_report`) writes only to its caller's buffer, and the requests gathered under
`other_request` (Set Report, Get Protocol, Get Idle, a request of another type)
assign to no global. -/
def step (sc : Scancodes) (s : State) : Event → State
  | Event.scan pins => { s with debounce_keys := scan_matrix pins s.debounce_keys }
  | Event.hid_task configured stack ready => HID_Task sc s configured stack ready
  | Event.start_of_frame => EVENT_USB_Device_StartOfFrame s
  | Event.get_report _ => s
  | Event.set_protocol wValue => HID_REQ_SetProtocol s wValue
  | Event.set_idle wValue => HID_REQ_SetIdle s wValue
  | Event.other_request => s

/-- The state after a sequence of operations. -/
def run (sc : Scancodes) (s : State) (es : List Event) : State :=
  es.foldl (step sc) s

/-- The debounce matrix after a sequence of `scan_matrix` calls, one per entry of
`ps`. -/
def scan_matrix_seq (ps : List (Nat → Nat → Nat)) (dk : Nat → Nat → Nat) : Nat → Nat → Nat :=
  ps.foldl (fun d pins => scan_matrix pins d) dk

/-- The new value of one counter as `scan_matrix_cell` computes it from the raw
sample and the old value. -/
def debounce_step (pressed : Bool) (c : Nat) : Nat :=
  if pressed then
    if c < DEBOUNCE_THRESHOLD then (c + 1) % 256 else c
  else if c > 0 then (c + 255) % 256 else c

/-! ## Specification vocabulary for the report builder -/

/-- The coordinates of an `R` by `C` matrix in row-major order. -/
def coords (R C : Nat) : List (Nat × Nat) :=
  (List.range R).flatMap (fun row => (List.range C).map (fun col => (row, col)))

/-- The pressed coordinates other than the reserved one, in row-major order. -/
def pressed_coords (R C : Nat) (dk : Nat → Nat → Nat) : List (Nat × Nat) :=
  (coords R C).filter (fun p => decide (p ≠ (0, 0)) && (dk p.1 p.2 == DEBOUNCE_THRESHOLD))

/-- A list of key codes padded with zeros to six entries. -/
def pad6 (l : List Nat) : List Nat :=
  l ++ List.replicate (6 - l.length) 0

/-- Loop invariant of the report builder: `codes` are the key codes of the pressed
non-reserved coordinates met so far. -/
def BuildInv (codes : List Nat) (st : BuildState) : Prop :=
  st.UsedKeyCodes = min 6 codes.length ∧ st.ReportData.Modifier = 0 ∧
    st.ReportData.Reserved = 0 ∧ ∀ i : Fin 6, st.ReportData.KeyCode i = codes.getD i.val 0

/-- A concrete choice of the ten usage codes (those of the HID usage tables for the
keys 1 to 9 and 0), for evaluating examples. -/
def usage_codes : Scancodes :=
  { HID_KEYBOARD_SC_1_AND_EXCLAMATION := 0x1E
    HID_KEYBOARD_SC_2_AND_AT := 0x1F
    HID_KEYBOARD_SC_3_AND_HASHMARK := 0x20
    HID_KEYBOARD_SC_4_AND_DOLLAR := 0x21
    HID_KEYBOARD_SC_5_AND_PERCENTAGE := 0x22
    HID_KEYBOARD_SC_6_AND_CARET := 0x23
    HID_KEYBOARD_SC_7_AND_AMPERSAND := 0x24
    HID_KEYBOARD_SC_8_AND_ASTERISK := 0x25
    HID_KEYBOARD_SC_9_AND_OPENING_PARENTHESIS := 0x26
    HID_KEYBOARD_SC_0_AND_CLOSING_PARENTHESIS := 0x27 }

/-- A debounce matrix in which exactly the listed coordinates are pressed. -/
def pressed_at (l : List (Nat × Nat)) : Nat → Nat → Nat :=
  fun r c => if (r, c) ∈ l then DEBOUNCE_THRESHOLD else 0

/-- The coordinates other than the reserved one that the loop's own test
`is_key_pressed(row, col)` finds pressed, in row-major order. -/
def pressed_coords_tested (R C : Nat) (dk : Nat → Nat → Nat) : List (Nat × Nat) :=
  (coords R C).filter (fun p => decide (p ≠ (0, 0)) && is_key_pressed dk p.1 p.2)

/-- Whether an operation is a call of `scan_matrix`. -/
def is_scan : Event → Bool
  | Event.scan _ => true
  | _ => false

/-! ## Specification vocabulary for the idle cadence -/

/-- What a run shows of the transmissions: `none` for a start-of-frame tick,
`some t` for a call of `SendNextReport`, `t` telling whether that call wrote a
report to the endpoint. Other operations leave no entry. -/
def cadence_log (sc : Scancodes) : State → List Event → List (Option Bool)
  | _, [] => []
  | s, Event.start_of_frame :: es =>
    none :: cadence_log sc (step sc s Event.start_of_frame) es
  | s, Event.hid_task true stack ready :: es =>
    some (SendNextReport sc s stack ready).written.isSome ::
      cadence_log sc (step sc s (Event.hid_task true stack ready)) es
  | s, e :: es => cadence_log sc (step sc s e) es

/-- The cadence "a report is transmitted exactly by the first call following every
`period`-th tick since the previous transmission", checked on a log. `since` is
the number of ticks since the previous transmission, `none` as long as the run has
had no transmission; until then calls are not constrained. -/
def transmits_every (period : Nat) : Option Nat → List (Option Bool) → Bool
  | _, [] => true
  | since, none :: log => transmits_every period (since.map (· + 1)) log
  | none, some t :: log => transmits_every period (if t then some 0 else none) log
  | some n, some t :: log =>
    (t == decide (n = period)) && transmits_every period (if t then some 0 else some n) log

/-- `SendNextReport` is called at least once between any two consecutive ticks.
`pending` tells that a tick has occurred with no call since. -/
def sends_between_ticks : Bool → List Event → Bool
  | _, [] => true
  | pending, Event.start_of_frame :: es => !pending && sends_between_ticks true es
  | _, Event.hid_task true _ _ :: es => sends_between_ticks false es
  | pending, _ :: es => sends_between_ticks pending es

/-- The readiness of the endpoint at an operation that asks for it. -/
def endpoint_ready : Event → Bool
  | Event.hid_task _ _ ready => ready
  | _ => true

/-- A state in the middle of an idle period of 5: three ticks remain, every key
is released, and the last report transmitted held the key `(1,1)`. -/
def mid_period_state : State :=
  { UsingReportProtocol := true
    IdleCount := 5
    IdleMSRemaining := 3
    debounce_keys := fun _ _ => 0
    PrevKeyboardReportData := CreateKeyboardReport usage_codes (pressed_at [(1, 1)]) zero_report }

/-- A call of `SendNextReport`, then three times a tick followed by a call, the
endpoint being ready each time. -/
def call_then_three_ticks : List Event :=
  [Event.hid_task true zero_report true,
   Event.start_of_frame, Event.hid_task true zero_report true,
   Event.start_of_frame, Event.hid_task true zero_report true,
   Event.start_of_frame, Event.hid_task true zero_report true]

/-- Whether an operation is neither a `scan_matrix` call nor a Set Idle request. -/
def keeps_keys_and_idle : Event → Bool
  | Event.scan _ => false
  | Event.set_idle _ => false
  | _ => true

/-- The state after static initialisation, but with an idle period of 5. -/
def initial_state_idle5 : State :=
  { initial_state with IdleCount := 5 }

/-- A call of `SendNextReport`, then six times a tick followed by a call, then an
unconfigured `HID_Task`, the endpoint being ready each time. -/
def call_then_six_ticks : List Event :=
  [Event.hid_task true zero_report true,
   Event.start_of_frame, Event.hid_task true zero_report true,
   Event.start_of_frame, Event.hid_task true zero_report true,
   Event.start_of_frame, Event.hid_task true zero_report true,
   Event.start_of_frame, Event.hid_task true zero_report true,
   Event.start_of_frame, Event.hid_task true zero_report true,
   Event.start_of_frame, Event.hid_task true zero_report true,
   Event.hid_task false zero_report true]

/-- The state after static initialisation, but with the idle period disabled. -/
def initial_state_idle0 : State :=
  { initial_state with IdleCount := 0 }

/-- The state right after an idle-forced transmission with an idle period of 5 and
no key pressed. -/
def just_transmitted_state : State :=
  { initial_state with IdleCount := 5, IdleMSRemaining := 5 }

/-- Column register bytes with exactly the listed switches closed: every bit low
when a listed column is read while its row is driven, every bit high otherwise. -/
def pins_closed_at (l : List (Nat × Nat)) : Nat → Nat → Nat :=
  fun r c => if (r, c) ∈ l then 0 else 255

/-- Twelve scans as the key `(1,1)` sees them: ten closed samples, one open
sample, one closed sample. -/
def bounce_samples : List (Nat → Nat → Nat) :=
  List.replicate 10 (pins_closed_at [(1, 1)]) ++ [pins_closed_at [], pins_closed_at [(1, 1)]]

/-- The number of scans of `ps` in which the sample of `(row, col)` is closed. -/
def closed_count (ps : List (Nat → Nat → Nat)) (row col : Nat) : Nat :=
  (ps.filter (fun pins => column_low pins row col)).length

/-! ## The scan and the report builder with every array access checked

The arrays are lists here, an access out of range yields `none`, and a function
that makes such an access yields `none`. -/

/-- A loop over `l` whose body may fail. -/
def fold_checked {α β : Type} (f : β → α → Option β) : List α → β → Option β
  | [], b => some b
  | a :: l, b =>
    match f b a with
    | none => none
    | some b1 => fold_checked f l b1

/-- The read `m[row][col]` of a two-dimensional array. -/
def matrix_get (m : List (List Nat)) (row col : Nat) : Option Nat :=
  match m[row]? with
  | none => none
  | some r => r[col]?

/-- The assignment `m[row][col] = v` of a two-dimensional array. -/
def matrix_set (m : List (List Nat)) (row col v : Nat) : Option (List (List Nat)) :=
  match m[row]? with
  | none => none
  | some r => if col < r.length then some (m.set row (r.set col v)) else none

/-- The read `t[layer][row][col]` of a three-dimensional array. -/
def table_get (t : List (List (List Nat))) (layer row col : Nat) : Option Nat :=
  match t[layer]? with
  | none => none
  | some m => matrix_get m row col

/-- A two-dimensional array seen as the total function of the unchecked model. -/
def matrix_fun (m : List (List Nat)) : Nat → Nat → Nat :=
  fun row col => (matrix_get m row col).getD 0

/-- The array `debounce_keys` has `NUM_ROWS` rows of `NUM_COLS` counters. -/
def well_shaped (dk : List (List Nat)) : Prop :=
  dk.length = NUM_ROWS ∧ ∀ r ∈ dk, r.length = NUM_COLS

/-- The array `ROWS` (line 68), each pin by its bit number. -/
def ROWS_array : List Nat := [4, 5]

/-- The array `COLS` (line 67), each pin by its bit number. -/
def COLS_array : List Nat := [6, 6, 7]

/-- The array `keycodes` (lines 73-78). -/
def keycodes_array (sc : Scancodes) : List (List (List Nat)) :=
  [[[LAYER_SWITCH, sc.HID_KEYBOARD_SC_4_AND_DOLLAR, sc.HID_KEYBOARD_SC_5_AND_PERCENTAGE],
    [sc.HID_KEYBOARD_SC_1_AND_EXCLAMATION, sc.HID_KEYBOARD_SC_2_AND_AT,
      sc.HID_KEYBOARD_SC_3_AND_HASHMARK]],
   [[LAYER_SWITCH, sc.HID_KEYBOARD_SC_9_AND_OPENING_PARENTHESIS,
      sc.HID_KEYBOARD_SC_0_AND_CLOSING_PARENTHESIS],
    [sc.HID_KEYBOARD_SC_6_AND_CARET, sc.HID_KEYBOARD_SC_7_AND_AMPERSAND,
      sc.HID_KEYBOARD_SC_8_AND_ASTERISK]]]

/-- The function `is_key_pressed` with its read of `debounce_keys` checked. -/
def is_key_pressed_checked (dk : List (List Nat)) (row col : Nat) : Option Bool :=
  match matrix_get dk (row % 256) (col % 256) with
  | none => none
  | some c => some (c == DEBOUNCE_THRESHOLD)

/-- The body of the inner loop of `scan_matrix` (lines 130-144) with its accesses
to `COLS` and `debounce_keys` checked. -/
def scan_matrix_cell_checked (pins : Nat → Nat → Nat) (dk : List (List Nat))
    (row col : Nat) : Option (List (List Nat)) :=
  match COLS_array[col]? with
  | none => none
  | some pin_n =>
    let pressed := (pins row col &&& (1 <<< pin_n)) == 0
    match matrix_get dk row col with
    | none => none
    | some c =>
      if pressed then
        if c < DEBOUNCE_THRESHOLD then matrix_set dk row col ((c + 1) % 256) else some dk
      else if c > 0 then matrix_set dk row col ((c + 255) % 256)
      else some dk

/-- One iteration of the outer loop of `scan_matrix` (lines 120-148) with its
accesses to `ROWS` checked; lines 121, 122 and 148 use the same index. -/
def scan_matrix_row_checked (pins : Nat → Nat → Nat) (dk : List (List Nat)) (row : Nat) :
    Option (List (List Nat)) :=
  match ROWS_array[row]? with
  | none => none
  | some _ =>
    fold_checked (fun d col => scan_matrix_cell_checked pins d row col) (List.range NUM_COLS) dk

/-- The function `scan_matrix` with every array access checked. -/
def scan_matrix_checked (pins : Nat → Nat → Nat) (dk : List (List Nat)) :
    Option (List (List Nat)) :=
  fold_checked (fun d row => scan_matrix_row_checked pins d row) (List.range NUM_ROWS) dk

/-- The body of the inner loop of `CreateKeyboardReport` (lines 317-325) with its
accesses to `debounce_keys`, `keycodes` and `KeyCode` checked. The state is the
array `KeyCode` and `UsedKeyCodes`. -/
def CreateKeyboardReport_body_checked (kc : List (List (List Nat))) (dk : List (List Nat))
    (layer : Nat) (st : List Nat × Nat) (row col : Nat) : Option (List Nat × Nat) :=
  match is_key_pressed_checked dk row col with
  | none => none
  | some pressed =>
    if pressed && decide (st.2 < 6) then
      if row = 0 ∧ col = 0 then some st
      else
        match table_get kc layer row col with
        | none => none
        | some v =>
          if st.2 < st.1.length then some (st.1.set st.2 v, (st.2 + 1) % 256) else none
    else some st

/-- The function `CreateKeyboardReport` with every array access checked: the array
`KeyCode` and the final `UsedKeyCodes`. The `memset` leaves six zero slots. -/
def CreateKeyboardReport_checked (sc : Scancodes) (dk : List (List Nat)) :
    Option (List Nat × Nat) :=
  match is_key_pressed_checked dk 0 0 with
  | none => none
  | some pressed =>
    fold_checked
      (fun st1 row =>
        fold_checked
          (fun st2 col =>
            CreateKeyboardReport_body_checked (keycodes_array sc) dk
              (if pressed then 1 else 0) st2 row col)
          (List.range NUM_COLS) st1)
      (List.range NUM_ROWS) (List.replicate 6 0, 0)

/-- The checked state and the unchecked state of the report builder agree. -/
def build_agree (stC : List Nat × Nat) (stT : BuildState) : Prop :=
  stC.1 = List.ofFn stT.ReportData.KeyCode ∧ stC.2 = stT.UsedKeyCodes

/-! ## Lemmas on the report builder -/

theorem loop_eq_foldl_coords (R C : Nat) (kc : Nat → Nat → Nat → Nat)
    (dk : Nat → Nat → Nat) (layer : Nat) (st : BuildState) :
    CreateKeyboardReport_loop R C kc dk layer st =
      (coords R C).foldl (fun s p => CreateKeyboardReport_body kc dk layer s p.1 p.2) st := by
  unfold CreateKeyboardReport_loop coords
  generalize List.range R = rows
  induction rows generalizing st with
  | nil => rfl
  | cons r rs ih =>
    simp only [List.foldl_cons, List.flatMap_cons, List.foldl_append, List.foldl_map]
    exact ih _

theorem mem_coords {R C : Nat} {p : Nat × Nat} :
    p ∈ coords R C ↔ p.1 < R ∧ p.2 < C := by
  obtain ⟨a, b⟩ := p
  simp [coords, List.mem_flatMap]

theorem getD_append_singleton (codes : List Nat) (v i : Nat) :
    (codes ++ [v]).getD i 0 = if i = codes.length then v else codes.getD i 0 := by
  rcases Nat.lt_trichotomy i codes.length with h | h | h
  · rw [List.getD_append _ _ _ _ h, if_neg (Nat.ne_of_lt h)]
  · subst h
    simp [List.getD_append_right]
  · rw [if_neg (Nat.ne_of_gt h), List.getD_append_right _ _ _ _ (Nat.le_of_lt h)]
    have h1 : codes.length ≤ i := Nat.le_of_lt h
    rw [List.getD_eq_default _ _ h1]
    apply List.getD_eq_default
    simp
    omega

theorem body_inv (kc : Nat → Nat → Nat → Nat) (dk : Nat → Nat → Nat) (layer : Nat)
    (codes : List Nat) (st : BuildState) (row col : Nat)
    (hr : row < 256) (hc : col < 256) (h : BuildInv codes st) :
    BuildInv
      (codes ++ if (row, col) ≠ (0, 0) ∧ dk row col = DEBOUNCE_THRESHOLD
        then [kc layer row col] else [])
      (CreateKeyboardReport_body kc dk layer st row col) := by
  obtain ⟨hu, hm, hres, hk⟩ := h
  unfold CreateKeyboardReport_body is_key_pressed
  rw [Nat.mod_eq_of_lt hr, Nat.mod_eq_of_lt hc]
  by_cases hp : dk row col = DEBOUNCE_THRESHOLD
  · by_cases h00 : row = 0 ∧ col = 0
    · have : (row, col) = (0, 0) := by simp [h00.1, h00.2]
      simp [hp, h00, this]
      exact ⟨hu, hm, hres, hk⟩
    · have hne : (row, col) ≠ (0, 0) := by
        intro e
        simp only [Prod.mk.injEq] at e
        exact h00 e
      by_cases h6 : st.UsedKeyCodes < 6
      · have hlen : codes.length = st.UsedKeyCodes := by omega
        simp only [hp, beq_self_eq_true, h6, decide_True, Bool.and_self, if_true, h00, if_false,
          hne, ne_eq, not_false_eq_true, and_self]
        refine ⟨?_, hm, hres, ?_⟩
        · simp only [List.length_append, List.length_singleton]
          omega
        · intro i
          simp only [KeyCode_store]
          rw [getD_append_singleton, hlen]
          by_cases hi : i.val = st.UsedKeyCodes
          · simp [hi]
          · simp [hi, hk i]
      · have hlen : 6 ≤ codes.length := by omega
        have hst : (if ((DEBOUNCE_THRESHOLD == DEBOUNCE_THRESHOLD) &&
            decide (st.UsedKeyCodes < 6)) = true then
              (if row = 0 ∧ col = 0 then st
              else
                { ReportData := KeyCode_store st.ReportData st.UsedKeyCodes (kc layer row col)
                  UsedKeyCodes := (st.UsedKeyCodes + 1) % 256 })
            else st) = st := by
          simp [h6]
        rw [hp, hst, if_pos ⟨hne, rfl⟩]
        refine ⟨?_, hm, hres, ?_⟩
        · simp only [List.length_append, List.length_singleton]
          omega
        · intro i
          rw [getD_append_singleton, if_neg (by omega)]
          exact hk i
  · simp [hp]
    exact ⟨hu, hm, hres, hk⟩

theorem foldl_body_inv (kc : Nat → Nat → Nat → Nat) (dk : Nat → Nat → Nat) (layer : Nat)
    (l : List (Nat × Nat)) (hl : ∀ p ∈ l, p.1 < 256 ∧ p.2 < 256)
    (codes : List Nat) (st : BuildState) (h : BuildInv codes st) :
    BuildInv
      (codes ++ (l.filter
        (fun p => decide (p ≠ (0, 0)) && (dk p.1 p.2 == DEBOUNCE_THRESHOLD))).map
          (fun p => kc layer p.1 p.2))
      (l.foldl (fun s p => CreateKeyboardReport_body kc dk layer s p.1 p.2) st) := by
  induction l generalizing codes st with
  | nil => simpa using h
  | cons p ps ih =>
    obtain ⟨row, col⟩ := p
    have hp := hl (row, col) (List.mem_cons_self _ _)
    have hstep := body_inv kc dk layer codes st row col hp.1 hp.2 h
    have hrest := ih (fun q hq => hl q (List.mem_cons_of_mem _ hq)) _ _ hstep
    rw [List.foldl_cons]
    by_cases hc : (row, col) ≠ (0, 0) ∧ dk row col = DEBOUNCE_THRESHOLD
    · rw [if_pos hc] at hrest
      have hf : (decide ((row, col) ≠ (0, 0)) && (dk row col == DEBOUNCE_THRESHOLD)) = true := by
        rw [Bool.and_eq_true]
        exact ⟨decide_eq_true hc.1, beq_iff_eq.mpr hc.2⟩
      simp only [List.filter_cons, hf, if_true, List.map_cons]
      simpa [List.append_assoc] using hrest
    · rw [if_neg hc, List.append_nil] at hrest
      have hf : (decide ((row, col) ≠ (0, 0)) && (dk row col == DEBOUNCE_THRESHOLD)) = false := by
        rw [Bool.and_eq_false_iff]
        by_cases h0 : (row, col) ≠ (0, 0)
        · right
          exact beq_eq_false_iff_ne.mpr (fun e => hc ⟨h0, e⟩)
        · left
          exact decide_eq_false h0
      simp only [List.filter_cons, hf, Bool.false_eq_true, if_false]
      exact hrest

/-- What the report builder computes on a matrix whose coordinates all fit a
`uint8_t`: the key codes of the pressed non-reserved coordinates, in row-major
order, as far as six slots go. -/
theorem sized_inv (R C : Nat) (hR : R ≤ 256) (hC : C ≤ 256) (kc : Nat → Nat → Nat → Nat)
    (dk : Nat → Nat → Nat) (buf : USB_KeyboardReport_Data_t) :
    BuildInv ((pressed_coords R C dk).map (fun p => kc (active_layer dk) p.1 p.2))
      (CreateKeyboardReport_sized R C kc dk buf) := by
  unfold CreateKeyboardReport_sized pressed_coords
  rw [loop_eq_foldl_coords]
  have h0 : BuildInv [] { ReportData := memset_zero buf, UsedKeyCodes := 0 } := by
    refine ⟨by simp, rfl, rfl, ?_⟩
    intro i
    simp [memset_zero, zero_report]
  have hl : ∀ p ∈ coords R C, p.1 < 256 ∧ p.2 < 256 := by
    intro p hp
    have := mem_coords.mp hp
    omega
  simpa using foldl_body_inv kc dk (active_layer dk) (coords R C) hl [] _ h0

/-- The invariant at the end of the shipped `CreateKeyboardReport`. -/
theorem CreateKeyboardReport_inv (sc : Scancodes) (dk : Nat → Nat → Nat)
    (buf : USB_KeyboardReport_Data_t) :
    (CreateKeyboardReport_sized NUM_ROWS NUM_COLS (keycodes sc) dk buf).UsedKeyCodes =
        min 6 (pressed_coords NUM_ROWS NUM_COLS dk).length ∧
      (CreateKeyboardReport sc dk buf).Modifier = 0 ∧
      (CreateKeyboardReport sc dk buf).Reserved = 0 ∧
      ∀ i : Fin 6, (CreateKeyboardReport sc dk buf).KeyCode i =
        ((pressed_coords NUM_ROWS NUM_COLS dk).map
          (fun p => keycodes sc (active_layer dk) p.1 p.2)).getD i.val 0 := by
  have h := sized_inv NUM_ROWS NUM_COLS (by decide) (by decide) (keycodes sc) dk buf
  obtain ⟨hu, hm, hr, hk⟩ := h
  exact ⟨by simpa using hu, hm, hr, hk⟩

theorem ofFn_eq_pad6 (f : Fin 6 → Nat) (codes : List Nat)
    (h : ∀ i : Fin 6, f i = codes.getD i.val 0) :
    List.ofFn f = pad6 (codes.take 6) := by
  apply List.ext_getElem
  · simp [pad6]
  · intro i h1 h2
    have hi : i < 6 := by simpa using h1
    rw [List.getElem_ofFn, h ⟨i, hi⟩]
    unfold pad6
    by_cases hc : i < codes.length
    · rw [List.getElem_append_left (by simp; omega)]
      simp [List.getD_eq_getElem?_getD, List.getElem?_eq_getElem hc]
    · rw [List.getElem_append_right (by simp; omega)]
      simp [List.getD_eq_getElem?_getD, List.getElem?_eq_none (Nat.le_of_not_lt hc)]

theorem active_layer_eq (dk : Nat → Nat → Nat) :
    active_layer dk = if dk 0 0 = DEBOUNCE_THRESHOLD then 1 else 0 := by
  simp [active_layer, is_key_pressed]

/-! ## Claims on the report builder -/

/-- C1. For every debounce state (in particular every one whose counters lie in
`[0, DEBOUNCE_THRESHOLD]`) and whatever the buffer held before, the report built by
`CreateKeyboardReport` has `Modifier = 0`, `Reserved = 0`, and its six `KeyCode`
slots are the list of `keycodes[L][row][col]` over the coordinates other than
`(0,0)` whose counter equals `DEBOUNCE_THRESHOLD`, in row-major order, cut to six
entries and padded with zeros, where `L` is `1` if the counter of `(0,0)` equals
`DEBOUNCE_THRESHOLD` and `0` otherwise. -/
theorem C1_report_contents (sc : Scancodes) (dk : Nat → Nat → Nat)
    (buf : USB_KeyboardReport_Data_t) :
    (CreateKeyboardReport sc dk buf).Modifier = 0 ∧
    (CreateKeyboardReport sc dk buf).Reserved = 0 ∧
    List.ofFn (CreateKeyboardReport sc dk buf).KeyCode =
      pad6 ((((coords 2 3).filter
        (fun p => decide (p ≠ (0, 0)) && (dk p.1 p.2 == DEBOUNCE_THRESHOLD))).map
          (fun p => keycodes sc (if dk 0 0 = DEBOUNCE_THRESHOLD then 1 else 0) p.1 p.2)).take 6) ∧
    coords 2 3 = [(0, 0), (0, 1), (0, 2), (1, 0), (1, 1), (1, 2)] := by
  obtain ⟨_, hm, hr, hk⟩ := CreateKeyboardReport_inv sc dk buf
  refine ⟨hm, hr, ?_, by decide⟩
  rw [← active_layer_eq]
  exact ofFn_eq_pad6 _ _ hk

/-! ## Lemmas on the scan -/

theorem scan_matrix_cell_apply (pins dk : Nat → Nat → Nat) (row col r c : Nat) :
    scan_matrix_cell pins dk row col r c =
      if r = row ∧ c = col then debounce_step (column_low pins row col) (dk row col)
      else dk r c := by
  unfold scan_matrix_cell debounce_step store_counter
  by_cases hrc : r = row ∧ c = col
  · obtain ⟨rfl, rfl⟩ := hrc
    simp only [and_self, if_true]
    split <;> split <;> simp
  · simp only [hrc, if_false]
    split <;> split <;> simp [hrc]

theorem scan_cols_apply (pins dk : Nat → Nat → Nat) (row n r c : Nat) :
    (List.range n).foldl (fun d col => scan_matrix_cell pins d row col) dk r c =
      if r = row ∧ c < n then debounce_step (column_low pins row c) (dk row c)
      else dk r c := by
  induction n generalizing r c with
  | zero => simp
  | succ n ih =>
    rw [List.range_succ, List.foldl_append, List.foldl_cons, List.foldl_nil,
      scan_matrix_cell_apply, ih, ih]
    by_cases hr : r = row
    · subst hr
      by_cases hc : c = n
      · subst hc
        simp [ih]
      · by_cases hlt : c < n
        · simp [hc, hlt, Nat.lt_succ_of_lt hlt]
        · have : ¬ c < n + 1 := by omega
          simp [hc, hlt, this]
    · simp [hr]

theorem scan_matrix_row_apply (pins dk : Nat → Nat → Nat) (row r c : Nat) :
    scan_matrix_row pins dk row r c =
      if r = row ∧ c < NUM_COLS then debounce_step (column_low pins row c) (dk row c)
      else dk r c :=
  scan_cols_apply pins dk row NUM_COLS r c

theorem scan_rows_apply (pins dk : Nat → Nat → Nat) (m r c : Nat) :
    (List.range m).foldl (fun d row => scan_matrix_row pins d row) dk r c =
      if r < m ∧ c < NUM_COLS then debounce_step (column_low pins r c) (dk r c)
      else dk r c := by
  induction m generalizing r c with
  | zero => simp
  | succ m ih =>
    rw [List.range_succ, List.foldl_append, List.foldl_cons, List.foldl_nil,
      scan_matrix_row_apply, ih, ih]
    by_cases hc : c < NUM_COLS
    · by_cases hr : r = m
      · subst hr
        simp [hc, ih]
      · by_cases hlt : r < m
        · simp [hc, hr, hlt, Nat.lt_succ_of_lt hlt]
        · have : ¬ r < m + 1 := by omega
          simp [hr, hlt, this]
    · simp [hc]

theorem scan_matrix_apply (pins dk : Nat → Nat → Nat) (r c : Nat) :
    scan_matrix pins dk r c =
      if r < NUM_ROWS ∧ c < NUM_COLS then debounce_step (column_low pins r c) (dk r c)
      else dk r c :=
  scan_rows_apply pins dk NUM_ROWS r c

theorem debounce_step_closed (c : Nat) (h : c ≤ DEBOUNCE_THRESHOLD) :
    debounce_step true c = min (c + 1) DEBOUNCE_THRESHOLD := by
  unfold debounce_step DEBOUNCE_THRESHOLD at *
  simp only [if_true]
  split <;> omega

theorem debounce_step_open (c : Nat) (h : c ≤ DEBOUNCE_THRESHOLD) :
    debounce_step false c = c - 1 := by
  unfold debounce_step DEBOUNCE_THRESHOLD at *
  simp only [Bool.false_eq_true, if_false]
  split <;> omega

theorem debounce_step_le (pressed : Bool) (c : Nat) (h : c ≤ DEBOUNCE_THRESHOLD) :
    debounce_step pressed c ≤ DEBOUNCE_THRESHOLD := by
  cases pressed
  · rw [debounce_step_open c h]
    omega
  · rw [debounce_step_closed c h]
    omega

theorem scan_matrix_le (pins dk : Nat → Nat → Nat)
    (h : ∀ r c, dk r c ≤ DEBOUNCE_THRESHOLD) (r c : Nat) :
    scan_matrix pins dk r c ≤ DEBOUNCE_THRESHOLD := by
  rw [scan_matrix_apply]
  split
  · exact debounce_step_le _ _ (h r c)
  · exact h r c

theorem SendNextReport_debounce_keys (sc : Scancodes) (s : State)
    (stack : USB_KeyboardReport_Data_t) (ready : Bool) :
    (SendNextReport sc s stack ready).state.debounce_keys = s.debounce_keys := by
  unfold SendNextReport
  by_cases hidle : s.IdleCount ≠ 0 ∧ s.IdleMSRemaining = 0
  · cases ready <;> simp [hidle]
  · simp only [hidle, if_false]
    split <;> rfl

theorem step_debounce_keys_le (sc : Scancodes) (s : State) (e : Event)
    (h : ∀ r c, s.debounce_keys r c ≤ DEBOUNCE_THRESHOLD) (r c : Nat) :
    (step sc s e).debounce_keys r c ≤ DEBOUNCE_THRESHOLD := by
  cases e with
  | scan pins => exact scan_matrix_le pins s.debounce_keys h r c
  | hid_task configured stack ready =>
    cases configured
    · exact h r c
    · simp only [step, HID_Task, if_true]
      rw [SendNextReport_debounce_keys]
      exact h r c
  | start_of_frame =>
    simp only [step, EVENT_USB_Device_StartOfFrame]
    split
    · exact h r c
    · exact h r c
  | get_report stack => exact h r c
  | set_protocol w => exact h r c
  | set_idle w => exact h r c
  | other_request => exact h r c

theorem run_debounce_keys_le (sc : Scancodes) (es : List Event) (s : State)
    (h : ∀ r c, s.debounce_keys r c ≤ DEBOUNCE_THRESHOLD) (r c : Nat) :
    (run sc s es).debounce_keys r c ≤ DEBOUNCE_THRESHOLD := by
  induction es generalizing s with
  | nil => exact h r c
  | cons e es ih =>
    exact ih (step sc s e) (fun r1 c1 => step_debounce_keys_le sc s e h r1 c1)

theorem scan_matrix_seq_closed (ps : List (Nat → Nat → Nat)) (dk : Nat → Nat → Nat)
    (row col : Nat) (hr : row < NUM_ROWS) (hc : col < NUM_COLS)
    (hd : dk row col ≤ DEBOUNCE_THRESHOLD)
    (hclosed : ∀ pins ∈ ps, column_low pins row col = true) :
    scan_matrix_seq ps dk row col = min (dk row col + ps.length) DEBOUNCE_THRESHOLD := by
  induction ps generalizing dk with
  | nil =>
    simp only [scan_matrix_seq, List.foldl_nil, List.length_nil, Nat.add_zero]
    omega
  | cons pins ps ih =>
    have hfirst : scan_matrix pins dk row col = min (dk row col + 1) DEBOUNCE_THRESHOLD := by
      rw [scan_matrix_apply, if_pos ⟨hr, hc⟩, hclosed pins (List.mem_cons_self _ _),
        debounce_step_closed _ hd]
    have hle : scan_matrix pins dk row col ≤ DEBOUNCE_THRESHOLD := by
      rw [hfirst]
      omega
    have hrest := ih (scan_matrix pins dk) hle
      (fun q hq => hclosed q (List.mem_cons_of_mem _ hq))
    simp only [scan_matrix_seq, List.foldl_cons, List.length_cons] at hrest ⊢
    rw [hrest, hfirst]
    omega

/-! ## Claims on the scan -/

/-- C2. One call of `scan_matrix` updates every counter from its own raw sample
only. For a coordinate of the matrix and a prior state whose counters lie in
`[0, DEBOUNCE_THRESHOLD]`, the new counter is `min(c + 1, DEBOUNCE_THRESHOLD)` when
the column pin reads low and `max(c - 1, 0)` when it reads high, `c` being the old
counter of that coordinate; and any other samples and prior state that agree with
these at this coordinate give the same new counter there. -/
theorem C2_scan_updates_each_counter (pins dk : Nat → Nat → Nat) (row col : Nat)
    (hr : row < NUM_ROWS) (hc : col < NUM_COLS)
    (hd : ∀ r c, r < NUM_ROWS → c < NUM_COLS → dk r c ≤ DEBOUNCE_THRESHOLD) :
    ((scan_matrix pins dk row col : Nat) : Int) =
      (if column_low pins row col = true
        then min ((dk row col : Int) + 1) (DEBOUNCE_THRESHOLD : Int)
        else max ((dk row col : Int) - 1) 0) ∧
    ∀ pins2 dk2 : Nat → Nat → Nat,
      column_low pins2 row col = column_low pins row col → dk2 row col = dk row col →
        scan_matrix pins2 dk2 row col = scan_matrix pins dk row col := by
  constructor
  · rw [scan_matrix_apply, if_pos ⟨hr, hc⟩]
    have h := hd row col hr hc
    cases hp : column_low pins row col
    · rw [debounce_step_open _ h]
      simp only [Bool.false_eq_true, if_false]
      omega
    · rw [debounce_step_closed _ h]
      simp only [if_true]
      omega
  · intro pins2 dk2 hs hk
    rw [scan_matrix_apply, scan_matrix_apply, if_pos ⟨hr, hc⟩, if_pos ⟨hr, hc⟩, hs, hk]

/-- C2, at the zero matrix with every pin low: the counter of `(1, 2)` becomes 1. -/
theorem C2_scan_updates_each_counter_witness :
    ((scan_matrix (fun _ _ => 0) (fun _ _ => 0) 1 2 : Nat) : Int) =
      (if column_low (fun _ _ => 0) 1 2 = true
        then min (((0 : Nat) : Int) + 1) (DEBOUNCE_THRESHOLD : Int)
        else max (((0 : Nat) : Int) - 1) 0) :=
  (C2_scan_updates_each_counter (fun _ _ => 0) (fun _ _ => 0) 1 2 (by decide) (by decide)
    (fun _ _ _ _ => Nat.zero_le _)).1

/-- C3. Range invariant: from the zero-initialised state, after any finite sequence
of operations (calls of `scan_matrix` with arbitrary samples, of `HID_Task` and so
`SendNextReport`, of `CreateKeyboardReport` through Get Report, start-of-frame
ticks and the other host requests), every counter of `debounce_keys` is at most
`DEBOUNCE_THRESHOLD`, hence below 256: the `uint8_t` never wraps. -/
theorem C3_counter_range (sc : Scancodes) (es : List Event) (row col : Nat) :
    (run sc initial_state es).debounce_keys row col ≤ DEBOUNCE_THRESHOLD ∧
    (run sc initial_state es).debounce_keys row col < 256 := by
  have h := run_debounce_keys_le sc es initial_state (fun _ _ => Nat.zero_le _) row col
  refine ⟨h, ?_⟩
  unfold DEBOUNCE_THRESHOLD at h
  omega

/-- C4. For a coordinate of the matrix whose counter starts anywhere in
`[0, DEBOUNCE_THRESHOLD]`, after `N >= DEBOUNCE_THRESHOLD` consecutive calls of
`scan_matrix` in each of which that coordinate's column pin reads low, whatever the
other samples and counters, its counter equals `DEBOUNCE_THRESHOLD` and
`is_key_pressed` is true. -/
theorem C4_pressed_after_threshold_scans (ps : List (Nat → Nat → Nat))
    (dk : Nat → Nat → Nat) (row col : Nat)
    (hr : row < NUM_ROWS) (hc : col < NUM_COLS)
    (hd : dk row col ≤ DEBOUNCE_THRESHOLD)
    (hclosed : ∀ pins ∈ ps, column_low pins row col = true)
    (hN : DEBOUNCE_THRESHOLD ≤ ps.length) :
    scan_matrix_seq ps dk row col = DEBOUNCE_THRESHOLD ∧
    is_key_pressed (scan_matrix_seq ps dk) row col = true := by
  have h := scan_matrix_seq_closed ps dk row col hr hc hd hclosed
  have hval : scan_matrix_seq ps dk row col = DEBOUNCE_THRESHOLD := by
    rw [h]
    omega
  refine ⟨hval, ?_⟩
  unfold NUM_ROWS at hr
  unfold NUM_COLS at hc
  unfold is_key_pressed
  rw [Nat.mod_eq_of_lt (by omega), Nat.mod_eq_of_lt (by omega), hval]
  exact beq_self_eq_true _

/-- C4, at ten scans with every pin low, from a counter of 3 at `(1, 1)`. -/
theorem C4_pressed_after_threshold_scans_witness :
    is_key_pressed
      (scan_matrix_seq (List.replicate 10 (fun _ _ => 0))
        (fun r c => if r = 1 ∧ c = 1 then 3 else 0)) 1 1 = true :=
  (C4_pressed_after_threshold_scans (List.replicate 10 (fun _ _ => 0))
    (fun r c => if r = 1 ∧ c = 1 then 3 else 0) 1 1 (by decide) (by decide) (by decide)
    (fun pins hp => by rw [List.eq_of_mem_replicate hp]; decide) (by decide)).2

/-! ## Lemmas on the send decision -/

theorem memcmp_eq_zero_iff (a b : List Nat) (n : Nat) (ha : a.length = n) (hb : b.length = n) :
    memcmp a b n = 0 ↔ a = b := by
  induction n generalizing a b with
  | zero =>
    rw [List.length_eq_zero] at ha hb
    subst ha
    subst hb
    simp [memcmp]
  | succ n ih =>
    cases a with
    | nil => simp at ha
    | cons x xs =>
      cases b with
      | nil => simp at hb
      | cons y ys =>
        simp only [List.length_cons, Nat.add_right_cancel_iff] at ha hb
        unfold memcmp
        by_cases hxy : x = y
        · subst hxy
          simp [ih xs ys ha hb]
        · simp only [hxy, if_false, List.cons.injEq, false_and, iff_false]
          omega

theorem report_bytes_length (r : USB_KeyboardReport_Data_t) :
    (report_bytes r).length = sizeof_report := by
  simp [report_bytes, sizeof_report]

theorem report_eq_iff (p q : USB_KeyboardReport_Data_t) :
    p = q ↔ p.Modifier = q.Modifier ∧ p.Reserved = q.Reserved ∧
      ∀ i : Fin 6, p.KeyCode i = q.KeyCode i := by
  constructor
  · rintro rfl
    exact ⟨rfl, rfl, fun _ => rfl⟩
  · rintro ⟨hm, hr, hk⟩
    cases p
    cases q
    simp only at hm hr hk
    subst hm
    subst hr
    have : _ = _ := funext hk
    subst this
    rfl

theorem report_bytes_inj (p q : USB_KeyboardReport_Data_t) :
    report_bytes p = report_bytes q ↔ p = q := by
  constructor
  · intro h
    simp only [report_bytes, List.cons.injEq, List.ofFn_inj] at h
    exact (report_eq_iff p q).mpr ⟨h.1, h.2.1, fun i => congrFun h.2.2 i⟩
  · rintro rfl
    rfl

/-- The comparison of line 352 is exact equality of the two reports. -/
theorem memcmp_report_ne (p q : USB_KeyboardReport_Data_t) :
    decide (memcmp (report_bytes p) (report_bytes q) sizeof_report ≠ 0) = true ↔ p ≠ q := by
  rw [decide_eq_true_iff, Ne, Ne,
    memcmp_eq_zero_iff _ _ _ (report_bytes_length p) (report_bytes_length q), report_bytes_inj]

theorem report_ne_iff (p q : USB_KeyboardReport_Data_t) :
    p ≠ q ↔ p.Modifier ≠ q.Modifier ∨ p.Reserved ≠ q.Reserved ∨
      ∃ i : Fin 6, p.KeyCode i ≠ q.KeyCode i := by
  rw [Ne, report_eq_iff]
  constructor
  · intro h
    by_contra hcon
    push_neg at hcon
    exact h ⟨hcon.1, hcon.2.1, hcon.2.2⟩
  · rintro (h | h | ⟨i, h⟩) ⟨hm, hr, hk⟩
    · exact h hm
    · exact h hr
    · exact h (hk i)

theorem SendNextReport_idle (sc : Scancodes) (s : State) (stack : USB_KeyboardReport_Data_t)
    (ready : Bool) :
    (SendNextReport sc s stack ready).state.IdleMSRemaining =
      if s.IdleCount ≠ 0 ∧ s.IdleMSRemaining = 0 then s.IdleCount else s.IdleMSRemaining := by
  unfold SendNextReport
  by_cases hidle : s.IdleCount ≠ 0 ∧ s.IdleMSRemaining = 0
  · cases ready <;> simp [hidle]
  · simp only [hidle, if_false]
    split <;> rfl

theorem SendNextReport_SendReport (sc : Scancodes) (s : State)
    (stack : USB_KeyboardReport_Data_t) (ready : Bool) :
    (SendNextReport sc s stack ready).SendReport = true ↔
      (s.IdleCount ≠ 0 ∧ s.IdleMSRemaining = 0) ∨
        CreateKeyboardReport sc s.debounce_keys stack ≠ s.PrevKeyboardReportData := by
  unfold SendNextReport
  by_cases hidle : s.IdleCount ≠ 0 ∧ s.IdleMSRemaining = 0
  · cases ready <;> simp [hidle]
  · have hsend : ∀ b : Bool, (if (ready && b) = true then
          ({ state := { s with PrevKeyboardReportData :=
                CreateKeyboardReport sc s.debounce_keys stack }
             SendReport := b
             written := some (CreateKeyboardReport sc s.debounce_keys stack) } : SendOutcome)
        else { state := s, SendReport := b, written := none }).SendReport = b := by
      intro b
      split <;> rfl
    simp only [hidle, if_false, false_or]
    rw [hsend, memcmp_report_ne]
    exact ne_comm

/-! ## Claims on the send decision -/

/-- C5. Send decision of `SendNextReport`, for every state, stack content and
endpoint readiness. If `IdleCount != 0` and `IdleMSRemaining == 0`, then `SendReport`
is true and `IdleMSRemaining` becomes `IdleCount`, whatever the report. Otherwise
`IdleMSRemaining` is unchanged and `SendReport` is true exactly when the newly built
report differs from `PrevKeyboardReportData` in at least one of its eight bytes
(modifier, reserved, or one of the six slots compared position by position). So a
previous report holding the keys of the new one in permuted slots gives
`SendReport = true` exactly when some slot changed its content. -/
theorem C5_send_decision (sc : Scancodes) (s : State) (stack : USB_KeyboardReport_Data_t)
    (ready : Bool) :
    ((SendNextReport sc s stack ready).state.IdleMSRemaining =
      if s.IdleCount ≠ 0 ∧ s.IdleMSRemaining = 0 then s.IdleCount else s.IdleMSRemaining) ∧
    ((SendNextReport sc s stack ready).SendReport = true ↔
      (s.IdleCount ≠ 0 ∧ s.IdleMSRemaining = 0) ∨
        ((CreateKeyboardReport sc s.debounce_keys stack).Modifier ≠
            s.PrevKeyboardReportData.Modifier ∨
          (CreateKeyboardReport sc s.debounce_keys stack).Reserved ≠
            s.PrevKeyboardReportData.Reserved ∨
          ∃ i : Fin 6, (CreateKeyboardReport sc s.debounce_keys stack).KeyCode i ≠
            s.PrevKeyboardReportData.KeyCode i)) ∧
    (∀ σ : Equiv.Perm (Fin 6),
      ((SendNextReport sc
          { s with PrevKeyboardReportData :=
              { Modifier := 0, Reserved := 0
                KeyCode := fun i => (CreateKeyboardReport sc s.debounce_keys stack).KeyCode (σ i) } }
          stack ready).SendReport = true ↔
        (s.IdleCount ≠ 0 ∧ s.IdleMSRemaining = 0) ∨
          ∃ i : Fin 6, (CreateKeyboardReport sc s.debounce_keys stack).KeyCode i ≠
            (CreateKeyboardReport sc s.debounce_keys stack).KeyCode (σ i))) := by
  refine ⟨SendNextReport_idle sc s stack ready, ?_, ?_⟩
  · rw [SendNextReport_SendReport, report_ne_iff]
  · intro σ
    rw [SendNextReport_SendReport, report_ne_iff]
    have hm := (CreateKeyboardReport_inv sc s.debounce_keys stack).2.1
    have hr := (CreateKeyboardReport_inv sc s.debounce_keys stack).2.2.1
    simp [hm, hr]

/-! ## Further claims on the report builder -/

theorem mem_pressed_coords {R C : Nat} {dk : Nat → Nat → Nat} {p : Nat × Nat} :
    p ∈ pressed_coords R C dk ↔
      p.1 < R ∧ p.2 < C ∧ p ≠ (0, 0) ∧ dk p.1 p.2 = DEBOUNCE_THRESHOLD := by
  unfold pressed_coords
  rw [List.mem_filter, mem_coords]
  simp [and_assoc]

theorem getD_map_of_lt (P : List (Nat × Nat)) (f : Nat × Nat → Nat) (i : Nat)
    (h : i < P.length) : (P.map f).getD i 0 = f (P.get ⟨i, h⟩) := by
  simp [List.getD_eq_getElem?_getD, List.getElem?_eq_getElem h]

theorem getD_map_of_le (P : List (Nat × Nat)) (f : Nat × Nat → Nat) (i : Nat)
    (h : P.length ≤ i) : (P.map f).getD i 0 = 0 := by
  simp [List.getD_eq_getElem?_getD, List.getElem?_eq_none h]

theorem body_stores_below_six (kc : Nat → Nat → Nat → Nat) (dk : Nat → Nat → Nat)
    (layer : Nat) (st : BuildState) (row col : Nat) :
    CreateKeyboardReport_body kc dk layer st row col = st ∨
      (st.UsedKeyCodes < 6 ∧
        CreateKeyboardReport_body kc dk layer st row col =
          { ReportData := KeyCode_store st.ReportData st.UsedKeyCodes (kc layer row col)
            UsedKeyCodes := (st.UsedKeyCodes + 1) % 256 }) := by
  unfold CreateKeyboardReport_body
  by_cases hg : (is_key_pressed dk row col && decide (st.UsedKeyCodes < 6)) = true
  · by_cases h00 : row = 0 ∧ col = 0
    · left
      simp [hg, h00]
    · right
      have h6 : st.UsedKeyCodes < 6 := by
        rw [Bool.and_eq_true] at hg
        exact of_decide_eq_true hg.2
      refine ⟨h6, ?_⟩
      rw [if_pos hg, if_neg h00]
  · left
    rw [if_neg hg]

/-- C6. The reserved coordinate `(0,0)` never contributes to a report. For every
debounce state, the number of slots used by `CreateKeyboardReport` (the final
`UsedKeyCodes`) is `min(6, n)` with `n` the number of pressed coordinates other than
`(0,0)`; every slot below it holds `keycodes[L][row][col]` of a pressed coordinate
`(row, col) != (0,0)` of the matrix; every slot from it on holds 0; when no
coordinate other than `(0,0)` is pressed, whether `(0,0)` is pressed or not, the
report is the all-zero report; and `UsedKeyCodes` counts the slots written, an
iteration of the loop either changing nothing or storing into slot `UsedKeyCodes`
and incrementing it. -/
theorem C6_reserved_never_reported (sc : Scancodes) (dk : Nat → Nat → Nat)
    (buf : USB_KeyboardReport_Data_t) :
    (CreateKeyboardReport_sized NUM_ROWS NUM_COLS (keycodes sc) dk buf).UsedKeyCodes =
      min 6 (pressed_coords NUM_ROWS NUM_COLS dk).length ∧
    (∀ i : Fin 6,
      i.val < (CreateKeyboardReport_sized NUM_ROWS NUM_COLS (keycodes sc) dk buf).UsedKeyCodes →
      ∃ row col, row < NUM_ROWS ∧ col < NUM_COLS ∧ (row, col) ≠ (0, 0) ∧
        dk row col = DEBOUNCE_THRESHOLD ∧
        (CreateKeyboardReport sc dk buf).KeyCode i =
          keycodes sc (if dk 0 0 = DEBOUNCE_THRESHOLD then 1 else 0) row col) ∧
    (∀ i : Fin 6,
      (CreateKeyboardReport_sized NUM_ROWS NUM_COLS (keycodes sc) dk buf).UsedKeyCodes ≤ i.val →
      (CreateKeyboardReport sc dk buf).KeyCode i = 0) ∧
    ((∀ row col, row < NUM_ROWS → col < NUM_COLS → (row, col) ≠ (0, 0) →
        dk row col ≠ DEBOUNCE_THRESHOLD) →
      CreateKeyboardReport sc dk buf = zero_report) ∧
    (∀ (st : BuildState) (row col : Nat),
      CreateKeyboardReport_body (keycodes sc) dk (active_layer dk) st row col = st ∨
        (st.UsedKeyCodes < 6 ∧
          CreateKeyboardReport_body (keycodes sc) dk (active_layer dk) st row col =
            { ReportData := KeyCode_store st.ReportData st.UsedKeyCodes
                (keycodes sc (active_layer dk) row col)
              UsedKeyCodes := (st.UsedKeyCodes + 1) % 256 })) := by
  obtain ⟨hu, hm, hr, hk⟩ := CreateKeyboardReport_inv sc dk buf
  refine ⟨hu, ?_, ?_, ?_, body_stores_below_six (keycodes sc) dk (active_layer dk)⟩
  · intro i hi
    rw [hu] at hi
    have hlt : i.val < (pressed_coords NUM_ROWS NUM_COLS dk).length := by omega
    have hmem := List.get_mem (pressed_coords NUM_ROWS NUM_COLS dk) i.val hlt
    obtain ⟨h1, h2, h3, h4⟩ := mem_pressed_coords.mp hmem
    refine ⟨_, _, h1, h2, h3, h4, ?_⟩
    rw [hk i, getD_map_of_lt _ _ _ hlt, active_layer_eq]
  · intro i hi
    rw [hu] at hi
    have hle : (pressed_coords NUM_ROWS NUM_COLS dk).length ≤ i.val := by
      have := i.isLt
      omega
    rw [hk i, getD_map_of_le _ _ _ hle]
  · intro hnone
    have hnil : pressed_coords NUM_ROWS NUM_COLS dk = [] := by
      rw [List.eq_nil_iff_forall_not_mem]
      intro p hp
      obtain ⟨h1, h2, h3, h4⟩ := mem_pressed_coords.mp hp
      exact hnone p.1 p.2 h1 h2 h3 h4
    rw [report_eq_iff]
    refine ⟨hm, hr, ?_⟩
    intro i
    rw [hk i, hnil]
    rfl

/-- C6, with `(0,0)` the only pressed key: the report is the all-zero report; and
with `(0,0)` and `(1,1)` pressed: slot 0 holds the layer-1 code of a pressed
coordinate other than `(0,0)`. -/
theorem C6_reserved_never_reported_witness :
    CreateKeyboardReport usage_codes (pressed_at [(0, 0)]) zero_report = zero_report ∧
    ∃ row col, row < NUM_ROWS ∧ col < NUM_COLS ∧ (row, col) ≠ (0, 0) ∧
      pressed_at [(0, 0), (1, 1)] row col = DEBOUNCE_THRESHOLD ∧
      (CreateKeyboardReport usage_codes (pressed_at [(0, 0), (1, 1)]) zero_report).KeyCode 0 =
        keycodes usage_codes
          (if pressed_at [(0, 0), (1, 1)] 0 0 = DEBOUNCE_THRESHOLD then 1 else 0) row col :=
  ⟨(C6_reserved_never_reported usage_codes (pressed_at [(0, 0)]) zero_report).2.2.2.1
    (by
      intro row col _ _ hne
      simp only [pressed_at, List.mem_singleton, hne, if_false, DEBOUNCE_THRESHOLD]
      decide),
   (C6_reserved_never_reported usage_codes (pressed_at [(0, 0), (1, 1)]) zero_report).2.1 0
    (by decide)⟩

theorem pad6_of_length {l : List Nat} (h : l.length = 6) : pad6 l = l := by
  simp [pad6, h]

/-- One iteration of the report builder's loop body, for any coordinate: the key
code is appended exactly when the coordinate is not `(0,0)` and `is_key_pressed`
holds of it. -/
theorem body_inv_tested (kc : Nat → Nat → Nat → Nat) (dk : Nat → Nat → Nat) (layer : Nat)
    (codes : List Nat) (st : BuildState) (row col : Nat) (h : BuildInv codes st) :
    BuildInv
      (codes ++ if (row, col) ≠ (0, 0) ∧ is_key_pressed dk row col = true
        then [kc layer row col] else [])
      (CreateKeyboardReport_body kc dk layer st row col) := by
  obtain ⟨hu, hm, hres, hk⟩ := h
  unfold CreateKeyboardReport_body
  cases hp : is_key_pressed dk row col
  · simp only [Bool.false_and, Bool.false_eq_true, if_false, and_false, List.append_nil]
    exact ⟨hu, hm, hres, hk⟩
  · by_cases h00 : row = 0 ∧ col = 0
    · have h0 : (row, col) = (0, 0) := by rw [h00.1, h00.2]
      have hst : (if (true && decide (st.UsedKeyCodes < 6)) = true then
            (if row = 0 ∧ col = 0 then st
            else
              { ReportData := KeyCode_store st.ReportData st.UsedKeyCodes (kc layer row col)
                UsedKeyCodes := (st.UsedKeyCodes + 1) % 256 })
          else st) = st := by
        simp [h00]
      rw [hst, if_neg (fun hc => hc.1 h0), List.append_nil]
      exact ⟨hu, hm, hres, hk⟩
    · have hne : (row, col) ≠ (0, 0) := by
        intro e
        simp only [Prod.mk.injEq] at e
        exact h00 e
      rw [if_pos ⟨hne, rfl⟩]
      by_cases h6 : st.UsedKeyCodes < 6
      · have hlen : codes.length = st.UsedKeyCodes := by omega
        simp only [h6, decide_True, Bool.and_self, if_true, h00, if_false]
        refine ⟨?_, hm, hres, ?_⟩
        · simp only [List.length_append, List.length_singleton]
          omega
        · intro i
          simp only [KeyCode_store]
          rw [getD_append_singleton, hlen]
          by_cases hi : i.val = st.UsedKeyCodes
          · simp [hi]
          · simp [hi, hk i]
      · have hlen : 6 ≤ codes.length := by omega
        have hst : (if (true && decide (st.UsedKeyCodes < 6)) = true then
              (if row = 0 ∧ col = 0 then st
              else
                { ReportData := KeyCode_store st.ReportData st.UsedKeyCodes (kc layer row col)
                  UsedKeyCodes := (st.UsedKeyCodes + 1) % 256 })
            else st) = st := by
          simp [h6]
        rw [hst]
        refine ⟨?_, hm, hres, ?_⟩
        · simp only [List.length_append, List.length_singleton]
          omega
        · intro i
          rw [getD_append_singleton, if_neg (by omega)]
          exact hk i

theorem foldl_body_inv_tested (kc : Nat → Nat → Nat → Nat) (dk : Nat → Nat → Nat)
    (layer : Nat) (l : List (Nat × Nat)) (codes : List Nat) (st : BuildState)
    (h : BuildInv codes st) :
    BuildInv
      (codes ++ (l.filter
        (fun p => decide (p ≠ (0, 0)) && is_key_pressed dk p.1 p.2)).map
          (fun p => kc layer p.1 p.2))
      (l.foldl (fun s p => CreateKeyboardReport_body kc dk layer s p.1 p.2) st) := by
  induction l generalizing codes st with
  | nil => simpa using h
  | cons p ps ih =>
    obtain ⟨row, col⟩ := p
    have hstep := body_inv_tested kc dk layer codes st row col h
    have hrest := ih _ _ hstep
    rw [List.foldl_cons]
    by_cases hc : (row, col) ≠ (0, 0) ∧ is_key_pressed dk row col = true
    · rw [if_pos hc] at hrest
      have hf : (decide ((row, col) ≠ (0, 0)) && is_key_pressed dk row col) = true := by
        rw [Bool.and_eq_true]
        exact ⟨decide_eq_true hc.1, hc.2⟩
      simp only [List.filter_cons, hf, if_true, List.map_cons]
      simpa [List.append_assoc] using hrest
    · rw [if_neg hc, List.append_nil] at hrest
      have hf : (decide ((row, col) ≠ (0, 0)) && is_key_pressed dk row col) = false := by
        rw [Bool.and_eq_false_iff]
        by_cases h0 : (row, col) ≠ (0, 0)
        · right
          rw [← Bool.not_eq_true]
          exact fun e => hc ⟨h0, e⟩
        · left
          exact decide_eq_false h0
      simp only [List.filter_cons, hf, Bool.false_eq_true, if_false]
      exact hrest

/-- What the report builder computes on a matrix of any size: the key codes of the
coordinates its own test finds pressed, in row-major order, as far as six slots
go. -/
theorem sized_inv_tested (R C : Nat) (kc : Nat → Nat → Nat → Nat)
    (dk : Nat → Nat → Nat) (buf : USB_KeyboardReport_Data_t) :
    BuildInv ((pressed_coords_tested R C dk).map (fun p => kc (active_layer dk) p.1 p.2))
      (CreateKeyboardReport_sized R C kc dk buf) := by
  unfold CreateKeyboardReport_sized pressed_coords_tested
  rw [loop_eq_foldl_coords]
  have h0 : BuildInv [] { ReportData := memset_zero buf, UsedKeyCodes := 0 } := by
    refine ⟨by simp, rfl, rfl, ?_⟩
    intro i
    simp [memset_zero, zero_report]
  simpa using foldl_body_inv_tested kc dk (active_layer dk) (coords R C) [] _ h0

/-- On a matrix whose coordinates all fit a `uint8_t`, the test `is_key_pressed`
reads the counter of the coordinate itself. -/
theorem pressed_coords_tested_eq (R C : Nat) (hR : R ≤ 256) (hC : C ≤ 256)
    (dk : Nat → Nat → Nat) :
    pressed_coords_tested R C dk = pressed_coords R C dk := by
  unfold pressed_coords_tested pressed_coords
  apply List.filter_congr
  intro p hp
  have hb := mem_coords.mp hp
  unfold is_key_pressed
  rw [Nat.mod_eq_of_lt (by omega), Nat.mod_eq_of_lt (by omega)]

/-- C7. `MAX_KEYS` boundary over the loop of `CreateKeyboardReport` with `NUM_ROWS`,
`NUM_COLS` and the key table as parameters, a coordinate being pressed when the
loop's own test `is_key_pressed(row, col)` holds of it. For every matrix size and
every debounce state in which at least 7 coordinates other than `(0,0)` are
pressed, the report holds exactly 6 key codes (`UsedKeyCodes` ends at 6), its six
slots are the key codes of the first 6 pressed non-reserved coordinates in
row-major order, so nothing of the 7th or a later one is stored; and every store
of the loop body goes to a slot index below 6. On a matrix of at most 256 rows and
256 columns, where every coordinate fits the `uint8_t` parameters of
`is_key_pressed`, the pressed coordinates are those whose counter equals
`DEBOUNCE_THRESHOLD`. -/
theorem C7_max_keys_boundary (R C : Nat)
    (kc : Nat → Nat → Nat → Nat) (dk : Nat → Nat → Nat) (buf : USB_KeyboardReport_Data_t)
    (h7 : 7 ≤ (pressed_coords_tested R C dk).length) :
    (CreateKeyboardReport_sized R C kc dk buf).UsedKeyCodes = 6 ∧
    List.ofFn (CreateKeyboardReport_sized R C kc dk buf).ReportData.KeyCode =
      ((pressed_coords_tested R C dk).take 6).map (fun p => kc (active_layer dk) p.1 p.2) ∧
    (∀ (st : BuildState) (row col : Nat),
      CreateKeyboardReport_body kc dk (active_layer dk) st row col = st ∨
        (st.UsedKeyCodes < 6 ∧
          CreateKeyboardReport_body kc dk (active_layer dk) st row col =
            { ReportData :=
                KeyCode_store st.ReportData st.UsedKeyCodes (kc (active_layer dk) row col)
              UsedKeyCodes := (st.UsedKeyCodes + 1) % 256 })) ∧
    (R ≤ 256 → C ≤ 256 → pressed_coords_tested R C dk = pressed_coords R C dk) := by
  obtain ⟨hu, _, _, hk⟩ := sized_inv_tested R C kc dk buf
  refine ⟨?_, ?_, body_stores_below_six kc dk (active_layer dk),
    fun hR hC => pressed_coords_tested_eq R C hR hC dk⟩
  · rw [hu, List.length_map]
    omega
  · rw [ofFn_eq_pad6 _ _ hk, pad6_of_length, List.map_take]
    rw [List.length_take, List.length_map]
    omega

/-- C7, on a 3 by 3 matrix with all nine keys pressed: six slots are used, and the
pressed coordinates are those whose counter is at the threshold. -/
theorem C7_max_keys_boundary_witness :
    (CreateKeyboardReport_sized 3 3 (fun _ row col => 10 * row + col + 1) (fun _ _ => 10)
      zero_report).UsedKeyCodes = 6 ∧
    pressed_coords_tested 3 3 (fun _ _ => 10) = pressed_coords 3 3 (fun _ _ => 10) :=
  ⟨(C7_max_keys_boundary 3 3 (fun _ row col => 10 * row + col + 1)
      (fun _ _ => 10) zero_report (by decide)).1,
   (C7_max_keys_boundary 3 3 (fun _ row col => 10 * row + col + 1)
      (fun _ _ => 10) zero_report (by decide)).2.2.2 (by decide) (by decide)⟩

theorem SendNextReport_IdleCount (sc : Scancodes) (s : State)
    (stack : USB_KeyboardReport_Data_t) (ready : Bool) :
    (SendNextReport sc s stack ready).state.IdleCount = s.IdleCount := by
  unfold SendNextReport
  by_cases hidle : s.IdleCount ≠ 0 ∧ s.IdleMSRemaining = 0
  · cases ready <;> simp [hidle]
  · simp only [hidle, if_false]
    split <;> rfl

theorem step_debounce_keys_of_not_scan (sc : Scancodes) (s : State) (e : Event)
    (h : is_scan e = false) : (step sc s e).debounce_keys = s.debounce_keys := by
  cases e with
  | scan pins => simp [is_scan] at h
  | hid_task configured stack ready =>
    cases configured
    · rfl
    · simp only [step, HID_Task, if_true]
      exact SendNextReport_debounce_keys sc s stack ready
  | start_of_frame =>
    simp only [step, EVENT_USB_Device_StartOfFrame]
    split <;> rfl
  | get_report stack => rfl
  | set_protocol w => rfl
  | set_idle w => rfl
  | other_request => rfl

theorem run_debounce_keys_of_no_scan (sc : Scancodes) (es : List Event) (s : State)
    (h : ∀ e ∈ es, is_scan e = false) : (run sc s es).debounce_keys = s.debounce_keys := by
  induction es generalizing s with
  | nil => rfl
  | cons e es ih =>
    have h1 := step_debounce_keys_of_not_scan sc s e (h e (List.mem_cons_self _ _))
    have h2 := ih (step sc s e) (fun q hq => h q (List.mem_cons_of_mem _ hq))
    simp only [run, List.foldl_cons] at h2 ⊢
    rw [h2, h1]

/-- C8. `CreateKeyboardReport` is a pure query of the debounce state. Serving a Get
Report request, which is a bare call of it, leaves every global as it was, so
`debounce_keys`, `IdleCount` and `IdleMSRemaining` are unchanged; the report does
not depend on what the buffer held before; and a second call, after any
operations among which there is no `scan_matrix` call, yields an identical report,
byte for byte. -/
theorem C8_report_is_pure_query (sc : Scancodes) (s : State)
    (buf buf2 : USB_KeyboardReport_Data_t) (es : List Event)
    (hes : ∀ e ∈ es, is_scan e = false) :
    (step sc s (Event.get_report buf)).debounce_keys = s.debounce_keys ∧
    (step sc s (Event.get_report buf)).IdleCount = s.IdleCount ∧
    (step sc s (Event.get_report buf)).IdleMSRemaining = s.IdleMSRemaining ∧
    CreateKeyboardReport sc s.debounce_keys buf = CreateKeyboardReport sc s.debounce_keys buf2 ∧
    CreateKeyboardReport sc s.debounce_keys (CreateKeyboardReport sc s.debounce_keys buf) =
      CreateKeyboardReport sc s.debounce_keys buf ∧
    CreateKeyboardReport sc (run sc s es).debounce_keys buf2 =
      CreateKeyboardReport sc s.debounce_keys buf ∧
    report_bytes (CreateKeyboardReport sc (run sc s es).debounce_keys buf2) =
      report_bytes (CreateKeyboardReport sc s.debounce_keys buf) := by
  have hrun := run_debounce_keys_of_no_scan sc es s hes
  refine ⟨rfl, rfl, rfl, rfl, rfl, ?_, ?_⟩
  · rw [hrun]
    rfl
  · rw [hrun]
    rfl

/-- C8, with a tick, a send and a Set Idle request between the two calls. -/
theorem C8_report_is_pure_query_witness :
    CreateKeyboardReport usage_codes
        (run usage_codes initial_state
          [Event.start_of_frame, Event.hid_task true zero_report true,
            Event.set_idle 1024]).debounce_keys
        { Modifier := 7, Reserved := 7, KeyCode := fun _ => 7 } =
      CreateKeyboardReport usage_codes initial_state.debounce_keys zero_report :=
  (C8_report_is_pure_query usage_codes initial_state zero_report
    { Modifier := 7, Reserved := 7, KeyCode := fun _ => 7 }
    [Event.start_of_frame, Event.hid_task true zero_report true, Event.set_idle 1024]
    (by
      intro e he
      simp only [List.mem_cons, List.mem_singleton, List.not_mem_nil, or_false] at he
      rcases he with rfl | rfl | rfl <;> rfl)).2.2.2.2.2.1

theorem pressed_coords_congr (R C : Nat) (dk1 dk2 : Nat → Nat → Nat)
    (h : ∀ r c, (r, c) ≠ (0, 0) → dk1 r c = dk2 r c) :
    pressed_coords R C dk1 = pressed_coords R C dk2 := by
  unfold pressed_coords
  apply List.filter_congr
  intro p _
  by_cases hp : p = (0, 0)
  · simp [hp]
  · have := h p.1 p.2 hp
    simp [this]

/-- C10. Layer switch without latching. The layer `CreateKeyboardReport` uses is 1
exactly when the counter of `(0,0)` equals `DEBOUNCE_THRESHOLD` at the call, else 0.
For two debounce states that agree on every counter except that of `(0,0)`, the
first with `(0,0)` pressed and the second not, the two reports use the same number
of slots and fill them from the same pressed coordinates, the first with
`keycodes[1][row][col]`, the second with `keycodes[0][row][col]`. Hence the report
built right after the scan that brings the counter of `(0,0)` to
`DEBOUNCE_THRESHOLD` uses layer 1, and the one built right after the scan that
takes it below uses layer 0. -/
theorem C10_layer_switch (sc : Scancodes) (dk1 dk2 : Nat → Nat → Nat)
    (buf1 buf2 : USB_KeyboardReport_Data_t)
    (hagree : ∀ r c, (r, c) ≠ (0, 0) → dk1 r c = dk2 r c)
    (h1 : dk1 0 0 = DEBOUNCE_THRESHOLD) (h2 : dk2 0 0 ≠ DEBOUNCE_THRESHOLD) :
    (∀ dk : Nat → Nat → Nat,
      active_layer dk = if dk 0 0 = DEBOUNCE_THRESHOLD then 1 else 0) ∧
    pressed_coords NUM_ROWS NUM_COLS dk1 = pressed_coords NUM_ROWS NUM_COLS dk2 ∧
    (CreateKeyboardReport_sized NUM_ROWS NUM_COLS (keycodes sc) dk1 buf1).UsedKeyCodes =
      (CreateKeyboardReport_sized NUM_ROWS NUM_COLS (keycodes sc) dk2 buf2).UsedKeyCodes ∧
    (∀ i : Fin 6, (CreateKeyboardReport sc dk1 buf1).KeyCode i =
      ((pressed_coords NUM_ROWS NUM_COLS dk1).map (fun p => keycodes sc 1 p.1 p.2)).getD i.val 0) ∧
    (∀ i : Fin 6, (CreateKeyboardReport sc dk2 buf2).KeyCode i =
      ((pressed_coords NUM_ROWS NUM_COLS dk1).map (fun p => keycodes sc 0 p.1 p.2)).getD i.val 0) ∧
    (∀ (pins dk : Nat → Nat → Nat) (buf : USB_KeyboardReport_Data_t),
      dk 0 0 + 1 = DEBOUNCE_THRESHOLD → column_low pins 0 0 = true →
      ∀ i : Fin 6, (CreateKeyboardReport sc (scan_matrix pins dk) buf).KeyCode i =
        ((pressed_coords NUM_ROWS NUM_COLS (scan_matrix pins dk)).map
          (fun p => keycodes sc 1 p.1 p.2)).getD i.val 0) ∧
    (∀ (pins dk : Nat → Nat → Nat) (buf : USB_KeyboardReport_Data_t),
      dk 0 0 = DEBOUNCE_THRESHOLD → column_low pins 0 0 = false →
      ∀ i : Fin 6, (CreateKeyboardReport sc (scan_matrix pins dk) buf).KeyCode i =
        ((pressed_coords NUM_ROWS NUM_COLS (scan_matrix pins dk)).map
          (fun p => keycodes sc 0 p.1 p.2)).getD i.val 0) := by
  have hP := pressed_coords_congr NUM_ROWS NUM_COLS dk1 dk2 hagree
  have hL1 : active_layer dk1 = 1 := by rw [active_layer_eq, if_pos h1]
  have hL2 : active_layer dk2 = 0 := by rw [active_layer_eq, if_neg h2]
  obtain ⟨hu1, _, _, hk1⟩ := CreateKeyboardReport_inv sc dk1 buf1
  obtain ⟨hu2, _, _, hk2⟩ := CreateKeyboardReport_inv sc dk2 buf2
  refine ⟨active_layer_eq, hP, ?_, ?_, ?_, ?_, ?_⟩
  · rw [hu1, hu2, hP]
  · intro i
    rw [hk1 i, hL1]
  · intro i
    rw [hk2 i, hL2, hP]
  · intro pins dk buf h9 hlow i
    have hreach : scan_matrix pins dk 0 0 = DEBOUNCE_THRESHOLD := by
      rw [scan_matrix_apply, if_pos ⟨by decide, by decide⟩, hlow,
        debounce_step_closed _ (by omega)]
      omega
    have hL : active_layer (scan_matrix pins dk) = 1 := by rw [active_layer_eq, if_pos hreach]
    rw [(CreateKeyboardReport_inv sc (scan_matrix pins dk) buf).2.2.2 i, hL]
  · intro pins dk buf h10 hhigh i
    have hdrop : scan_matrix pins dk 0 0 ≠ DEBOUNCE_THRESHOLD := by
      rw [scan_matrix_apply, if_pos ⟨by decide, by decide⟩, hhigh,
        debounce_step_open _ (by omega), h10]
      decide
    have hL : active_layer (scan_matrix pins dk) = 0 := by rw [active_layer_eq, if_neg hdrop]
    rw [(CreateKeyboardReport_inv sc (scan_matrix pins dk) buf).2.2.2 i, hL]

/-- C10, with the key `(1,1)` pressed, once with and once without `(0,0)`; and at
the scan that takes the counter of `(0,0)` from 9 to `DEBOUNCE_THRESHOLD`. -/
theorem C10_layer_switch_witness :
    pressed_coords NUM_ROWS NUM_COLS (pressed_at [(0, 0), (1, 1)]) =
      pressed_coords NUM_ROWS NUM_COLS (pressed_at [(1, 1)]) ∧
    ∀ i : Fin 6,
      (CreateKeyboardReport usage_codes
        (scan_matrix (fun _ _ => 0) (fun r c => if r = 0 ∧ c = 0 then 9 else 10))
        zero_report).KeyCode i =
      ((pressed_coords NUM_ROWS NUM_COLS
        (scan_matrix (fun _ _ => 0) (fun r c => if r = 0 ∧ c = 0 then 9 else 10))).map
          (fun p => keycodes usage_codes 1 p.1 p.2)).getD i.val 0 :=
  ⟨(C10_layer_switch usage_codes (pressed_at [(0, 0), (1, 1)]) (pressed_at [(1, 1)])
    zero_report zero_report
    (by
      intro r c hne
      have h00 : ¬ (r = 0 ∧ c = 0) := fun h => hne (by rw [h.1, h.2])
      simp [pressed_at, h00])
    (by decide) (by decide)).2.1,
   (C10_layer_switch usage_codes (pressed_at [(0, 0), (1, 1)]) (pressed_at [(1, 1)])
    zero_report zero_report
    (by
      intro r c hne
      have h00 : ¬ (r = 0 ∧ c = 0) := fun h => hne (by rw [h.1, h.2])
      simp [pressed_at, h00])
    (by decide) (by decide)).2.2.2.2.2.1 (fun _ _ => 0)
      (fun r c => if r = 0 ∧ c = 0 then 9 else 10) zero_report (by decide) (by decide)⟩

/-! ## Lemmas on the idle cadence -/

theorem run_cons (sc : Scancodes) (s : State) (e : Event) (es : List Event) :
    run sc s (e :: es) = run sc (step sc s e) es := rfl

theorem SendNextReport_ready_elapsed (sc : Scancodes) (s : State)
    (stack : USB_KeyboardReport_Data_t) (h1 : s.IdleCount ≠ 0) (h2 : s.IdleMSRemaining = 0) :
    SendNextReport sc s stack true =
      { state := { s with IdleMSRemaining := s.IdleCount
                          PrevKeyboardReportData :=
                            CreateKeyboardReport sc s.debounce_keys zero_report }
        SendReport := true
        written := some (CreateKeyboardReport sc s.debounce_keys zero_report) } := by
  unfold SendNextReport
  simp only [h1, h2, ne_eq, not_false_eq_true, and_self, if_true, Bool.and_self]
  rfl

theorem SendNextReport_unchanged (sc : Scancodes) (s : State)
    (stack : USB_KeyboardReport_Data_t) (ready : Bool)
    (h1 : ¬ (s.IdleCount ≠ 0 ∧ s.IdleMSRemaining = 0))
    (h2 : s.PrevKeyboardReportData = CreateKeyboardReport sc s.debounce_keys zero_report) :
    SendNextReport sc s stack ready = { state := s, SendReport := false, written := none } := by
  have hcmp : decide (memcmp (report_bytes s.PrevKeyboardReportData)
      (report_bytes (CreateKeyboardReport sc s.debounce_keys stack)) sizeof_report ≠ 0)
      = false := by
    rw [← Bool.not_eq_true, memcmp_report_ne, h2]
    exact fun h => h rfl
  unfold SendNextReport
  simp only [h1, if_false, hcmp, Bool.and_false, Bool.false_eq_true]

theorem steady_cons (sc : Scancodes) (s : State) (e : Event) (es : List Event) (v : Nat)
    (h : ∀ k, (run sc s ((e :: es).take k)).IdleCount = v ∧
      (run sc s ((e :: es).take k)).debounce_keys = s.debounce_keys) :
    s.IdleCount = v ∧ (step sc s e).IdleCount = v ∧
      (step sc s e).debounce_keys = s.debounce_keys ∧
      ∀ k, (run sc (step sc s e) (es.take k)).IdleCount = v ∧
        (run sc (step sc s e) (es.take k)).debounce_keys = (step sc s e).debounce_keys := by
  have h0 := h 0
  have h1 := h 1
  simp only [List.take_zero, List.take_succ_cons, run, List.foldl_nil, List.foldl_cons] at h0 h1
  refine ⟨h0.1, h1.1, h1.2, ?_⟩
  intro k
  have hk := h (k + 1)
  simp only [List.take_succ_cons, run_cons] at hk
  exact ⟨hk.1, by rw [hk.2, h1.2]⟩

/-- After a transmission the calls follow the countdown: with `n` ticks since the
previous transmission and `5 - n` left on the countdown, the rest of the run
transmits exactly at the first call after the fifth tick. -/
theorem cadence_after_transmission (sc : Scancodes) (es : List Event) :
    ∀ (s : State) (n : Nat) (pending : Bool),
      s.PrevKeyboardReportData = CreateKeyboardReport sc s.debounce_keys zero_report →
      (∀ k, (run sc s (es.take k)).IdleCount = 5 ∧
        (run sc s (es.take k)).debounce_keys = s.debounce_keys) →
      (∀ e ∈ es, endpoint_ready e = true) →
      sends_between_ticks pending es = true →
      n ≤ 5 → (n = 5 → pending = true) → s.IdleMSRemaining = 5 - n →
      transmits_every 5 (some n) (cadence_log sc s es) = true := by
  induction es with
  | nil =>
    intros
    rfl
  | cons e es ih =>
    intro s n pending hprev hsteady hready hbetween hn hpend hrem
    obtain ⟨h5, h5s, hdks, htail⟩ := steady_cons sc s e es 5 hsteady
    have hready_tail : ∀ q ∈ es, endpoint_ready q = true :=
      fun q hq => hready q (List.mem_cons_of_mem _ hq)
    have hprev_step : ∀ s2 : State, s2.debounce_keys = s.debounce_keys →
        s2.PrevKeyboardReportData = s.PrevKeyboardReportData →
        s2.PrevKeyboardReportData = CreateKeyboardReport sc s2.debounce_keys zero_report := by
      intro s2 hd hp
      rw [hp, hd]
      exact hprev
    cases e with
    | scan pins =>
      exact ih _ n pending (hprev_step _ hdks rfl) htail hready_tail hbetween hn hpend hrem
    | hid_task configured stack ready =>
      have hr : ready = true := hready _ (List.mem_cons_self _ _)
      subst hr
      cases configured
      · exact ih _ n pending (hprev_step _ hdks rfl) htail hready_tail hbetween hn hpend hrem
      · have hbt : sends_between_ticks false es = true := hbetween
        by_cases hz : s.IdleMSRemaining = 0
        · have hn5 : n = 5 := by omega
          have hout := SendNextReport_ready_elapsed sc s stack (by omega) hz
          have hstep : step sc s (Event.hid_task true stack true) =
              { s with IdleMSRemaining := s.IdleCount
                       PrevKeyboardReportData :=
                         CreateKeyboardReport sc s.debounce_keys zero_report } := by
            simp only [step, HID_Task, if_true, hout]
          have hlog : cadence_log sc s (Event.hid_task true stack true :: es) =
              some true :: cadence_log sc (step sc s (Event.hid_task true stack true)) es := by
            simp only [cadence_log, hout, Option.isSome_some]
          rw [hlog, hn5]
          simp only [transmits_every, decide_True, beq_self_eq_true, Bool.true_and, if_true]
          refine ih _ 0 false ?_ htail hready_tail hbt (by omega) (by omega) ?_
          · rw [hstep]
          · rw [hstep]
            simp only [h5]
        · have hn5 : n ≠ 5 := by omega
          have hout := SendNextReport_unchanged sc s stack true (fun h => hz h.2) hprev
          have hstep : step sc s (Event.hid_task true stack true) = s := by
            simp only [step, HID_Task, if_true, hout]
          have hlog : cadence_log sc s (Event.hid_task true stack true :: es) =
              some false :: cadence_log sc (step sc s (Event.hid_task true stack true)) es := by
            simp only [cadence_log, hout, Option.isSome_none]
          rw [hlog]
          simp only [transmits_every, hn5, decide_False, beq_self_eq_true, Bool.true_and,
            Bool.false_eq_true, if_false]
          exact ih _ n false (hprev_step _ hdks (by rw [hstep])) htail hready_tail hbt hn
            (fun h => absurd h hn5) (by rw [hstep]; exact hrem)
    | start_of_frame =>
      have hb : pending = false ∧ sends_between_ticks true es = true := by
        have hb0 : (!pending && sends_between_ticks true es) = true := hbetween
        rw [Bool.and_eq_true] at hb0
        exact ⟨by simpa using hb0.1, hb0.2⟩
      have hn5 : n ≠ 5 := by
        intro h
        have := hpend h
        rw [hb.1] at this
        exact Bool.false_ne_true this
      have hnz : s.IdleMSRemaining ≠ 0 := by omega
      have hstep : (step sc s Event.start_of_frame).IdleMSRemaining = 5 - (n + 1) := by
        simp only [step, EVENT_USB_Device_StartOfFrame, hnz, ne_eq, not_false_eq_true, if_true]
        omega
      have hlog : cadence_log sc s (Event.start_of_frame :: es) =
          none :: cadence_log sc (step sc s Event.start_of_frame) es := rfl
      rw [hlog]
      simp only [transmits_every, Option.map_some']
      refine ih _ (n + 1) true (hprev_step _ hdks ?_) htail hready_tail hb.2 (by omega)
        (fun _ => rfl) hstep
      simp only [step, EVENT_USB_Device_StartOfFrame]
      split <;> rfl
    | get_report stack =>
      exact ih _ n pending (hprev_step _ hdks rfl) htail hready_tail hbetween hn hpend hrem
    | set_protocol w =>
      exact ih _ n pending (hprev_step _ hdks rfl) htail hready_tail hbetween hn hpend hrem
    | set_idle w =>
      exact ih _ n pending (hprev_step _ hdks rfl) htail hready_tail hbetween hn hpend hrem
    | other_request =>
      exact ih _ n pending (hprev_step _ hdks rfl) htail hready_tail hbetween hn hpend hrem

/-- Before the first transmission of the run nothing is constrained; from the
first transmission on, which is forced by the countdown, the cadence holds. -/
theorem cadence_before_transmission (sc : Scancodes) (es : List Event) :
    ∀ (s : State) (pending : Bool),
      s.PrevKeyboardReportData = CreateKeyboardReport sc s.debounce_keys zero_report →
      (∀ k, (run sc s (es.take k)).IdleCount = 5 ∧
        (run sc s (es.take k)).debounce_keys = s.debounce_keys) →
      (∀ e ∈ es, endpoint_ready e = true) →
      sends_between_ticks pending es = true →
      transmits_every 5 none (cadence_log sc s es) = true := by
  induction es with
  | nil =>
    intros
    rfl
  | cons e es ih =>
    intro s pending hprev hsteady hready hbetween
    obtain ⟨h5, h5s, hdks, htail⟩ := steady_cons sc s e es 5 hsteady
    have hready_tail : ∀ q ∈ es, endpoint_ready q = true :=
      fun q hq => hready q (List.mem_cons_of_mem _ hq)
    have hprev_step : ∀ s2 : State, s2.debounce_keys = s.debounce_keys →
        s2.PrevKeyboardReportData = s.PrevKeyboardReportData →
        s2.PrevKeyboardReportData = CreateKeyboardReport sc s2.debounce_keys zero_report := by
      intro s2 hd hp
      rw [hp, hd]
      exact hprev
    cases e with
    | scan pins => exact ih _ pending (hprev_step _ hdks rfl) htail hready_tail hbetween
    | hid_task configured stack ready =>
      have hr : ready = true := hready _ (List.mem_cons_self _ _)
      subst hr
      cases configured
      · exact ih _ pending (hprev_step _ hdks rfl) htail hready_tail hbetween
      · have hbt : sends_between_ticks false es = true := hbetween
        by_cases hz : s.IdleMSRemaining = 0
        · have hout := SendNextReport_ready_elapsed sc s stack (by omega) hz
          have hstep : step sc s (Event.hid_task true stack true) =
              { s with IdleMSRemaining := s.IdleCount
                       PrevKeyboardReportData :=
                         CreateKeyboardReport sc s.debounce_keys zero_report } := by
            simp only [step, HID_Task, if_true, hout]
          have hlog : cadence_log sc s (Event.hid_task true stack true :: es) =
              some true :: cadence_log sc (step sc s (Event.hid_task true stack true)) es := by
            simp only [cadence_log, hout, Option.isSome_some]
          rw [hlog]
          simp only [transmits_every, if_true]
          refine cadence_after_transmission sc es _ 0 false ?_ htail hready_tail hbt
            (by omega) (by omega) ?_
          · rw [hstep]
          · rw [hstep]
            simp only [h5]
        · have hout := SendNextReport_unchanged sc s stack true (fun h => hz h.2) hprev
          have hstep : step sc s (Event.hid_task true stack true) = s := by
            simp only [step, HID_Task, if_true, hout]
          have hlog : cadence_log sc s (Event.hid_task true stack true :: es) =
              some false :: cadence_log sc (step sc s (Event.hid_task true stack true)) es := by
            simp only [cadence_log, hout, Option.isSome_none]
          rw [hlog]
          simp only [transmits_every, Bool.false_eq_true, if_false]
          exact ih _ false (hprev_step _ hdks (by rw [hstep])) htail hready_tail hbt
    | start_of_frame =>
      have hb : sends_between_ticks true es = true := by
        have hb0 : (!pending && sends_between_ticks true es) = true := hbetween
        rw [Bool.and_eq_true] at hb0
        exact hb0.2
      have hlog : cadence_log sc s (Event.start_of_frame :: es) =
          none :: cadence_log sc (step sc s Event.start_of_frame) es := rfl
      rw [hlog]
      simp only [transmits_every, Option.map_none']
      refine ih _ true (hprev_step _ hdks ?_) htail hready_tail hb
      simp only [step, EVENT_USB_Device_StartOfFrame]
      split <;> rfl
    | get_report stack => exact ih _ pending (hprev_step _ hdks rfl) htail hready_tail hbetween
    | set_protocol w => exact ih _ pending (hprev_step _ hdks rfl) htail hready_tail hbetween
    | set_idle w => exact ih _ pending (hprev_step _ hdks rfl) htail hready_tail hbetween
    | other_request => exact ih _ pending (hprev_step _ hdks rfl) htail hready_tail hbetween

/-- A run that starts with the countdown elapsed: whatever the previous report,
the first call transmits through the idle-elapsed branch and the cadence holds
from there. -/
theorem cadence_from_elapsed (sc : Scancodes) (es : List Event) :
    ∀ (s : State) (pending : Bool),
      s.IdleMSRemaining = 0 →
      (∀ k, (run sc s (es.take k)).IdleCount = 5 ∧
        (run sc s (es.take k)).debounce_keys = s.debounce_keys) →
      (∀ e ∈ es, endpoint_ready e = true) →
      sends_between_ticks pending es = true →
      transmits_every 5 none (cadence_log sc s es) = true := by
  induction es with
  | nil =>
    intros
    rfl
  | cons e es ih =>
    intro s pending hz hsteady hready hbetween
    obtain ⟨h5, h5s, hdks, htail⟩ := steady_cons sc s e es 5 hsteady
    have hready_tail : ∀ q ∈ es, endpoint_ready q = true :=
      fun q hq => hready q (List.mem_cons_of_mem _ hq)
    cases e with
    | scan pins => exact ih _ pending hz htail hready_tail hbetween
    | hid_task configured stack ready =>
      have hr : ready = true := hready _ (List.mem_cons_self _ _)
      subst hr
      cases configured
      · exact ih _ pending hz htail hready_tail hbetween
      · have hbt : sends_between_ticks false es = true := hbetween
        have hout := SendNextReport_ready_elapsed sc s stack (by omega) hz
        have hstep : step sc s (Event.hid_task true stack true) =
            { s with IdleMSRemaining := s.IdleCount
                     PrevKeyboardReportData :=
                       CreateKeyboardReport sc s.debounce_keys zero_report } := by
          simp only [step, HID_Task, if_true, hout]
        have hlog : cadence_log sc s (Event.hid_task true stack true :: es) =
            some true :: cadence_log sc (step sc s (Event.hid_task true stack true)) es := by
          simp only [cadence_log, hout, Option.isSome_some]
        rw [hlog]
        simp only [transmits_every, if_true]
        refine cadence_after_transmission sc es _ 0 false ?_ htail hready_tail hbt
          (by omega) (by omega) ?_
        · rw [hstep]
        · rw [hstep]
          simp only [h5]
    | start_of_frame =>
      have hb : sends_between_ticks true es = true := by
        have hb0 : (!pending && sends_between_ticks true es) = true := hbetween
        rw [Bool.and_eq_true] at hb0
        exact hb0.2
      have hlog : cadence_log sc s (Event.start_of_frame :: es) =
          none :: cadence_log sc (step sc s Event.start_of_frame) es := rfl
      rw [hlog]
      simp only [transmits_every, Option.map_none']
      refine ih _ true ?_ htail hready_tail hb
      simp only [step, EVENT_USB_Device_StartOfFrame, hz, ne_eq, not_true_eq_false, if_false]
    | get_report stack => exact ih _ pending hz htail hready_tail hbetween
    | set_protocol w => exact ih _ pending hz htail hready_tail hbetween
    | set_idle w => exact ih _ pending hz htail hready_tail hbetween
    | other_request => exact ih _ pending hz htail hready_tail hbetween

theorem step_keeps_keys_and_idle (sc : Scancodes) (s : State) (e : Event)
    (h : keeps_keys_and_idle e = true) :
    (step sc s e).IdleCount = s.IdleCount ∧
      (step sc s e).debounce_keys = s.debounce_keys := by
  cases e with
  | scan pins => simp [keeps_keys_and_idle] at h
  | hid_task configured stack ready =>
    cases configured
    · exact ⟨rfl, rfl⟩
    · simp only [step, HID_Task, if_true]
      exact ⟨SendNextReport_IdleCount sc s stack ready,
        SendNextReport_debounce_keys sc s stack ready⟩
  | start_of_frame =>
    simp only [step, EVENT_USB_Device_StartOfFrame]
    split
    · exact ⟨rfl, rfl⟩
    · exact ⟨rfl, rfl⟩
  | get_report stack => exact ⟨rfl, rfl⟩
  | set_protocol w => exact ⟨rfl, rfl⟩
  | set_idle w => simp [keeps_keys_and_idle] at h
  | other_request => exact ⟨rfl, rfl⟩

theorem run_keeps_keys_and_idle (sc : Scancodes) (es : List Event) (s : State)
    (h : ∀ e ∈ es, keeps_keys_and_idle e = true) :
    (run sc s es).IdleCount = s.IdleCount ∧
      (run sc s es).debounce_keys = s.debounce_keys := by
  induction es generalizing s with
  | nil => exact ⟨rfl, rfl⟩
  | cons e es ih =>
    have h1 := step_keeps_keys_and_idle sc s e (h e (List.mem_cons_self _ _))
    have h2 := ih (step sc s e) (fun q hq => h q (List.mem_cons_of_mem _ hq))
    rw [run_cons]
    exact ⟨by rw [h2.1, h1.1], by rw [h2.2, h1.2]⟩

theorem steady_of_keeps (sc : Scancodes) (es : List Event) (s : State)
    (h : ∀ e ∈ es, keeps_keys_and_idle e = true) (k : Nat) :
    (run sc s (es.take k)).IdleCount = s.IdleCount ∧
      (run sc s (es.take k)).debounce_keys = s.debounce_keys :=
  run_keeps_keys_and_idle sc (es.take k) s (fun e he => h e (List.mem_of_mem_take he))

/-! ## Claim on the idle cadence -/

/-- C9, as stated, fails when the first transmission of the run is caused by a
changed report in the middle of the idle period. With `IdleCount = 5`, three ticks
left on the countdown and a previous report that differs from the current one, the
first call transmits without restarting the countdown, and the call after the
third tick transmits again: three ticks after the previous transmission, not
five. -/
theorem C9_counterexample :
    (∀ k, (run usage_codes mid_period_state (call_then_three_ticks.take k)).IdleCount = 5 ∧
      (run usage_codes mid_period_state (call_then_three_ticks.take k)).debounce_keys =
        mid_period_state.debounce_keys) ∧
    (∀ e ∈ call_then_three_ticks, endpoint_ready e = true) ∧
    sends_between_ticks false call_then_three_ticks = true ∧
    cadence_log usage_codes mid_period_state call_then_three_ticks =
      [some true, none, some false, none, some false, none, some true] ∧
    transmits_every 5 none (cadence_log usage_codes mid_period_state call_then_three_ticks) =
      false := by
  refine ⟨?_, by decide, by decide, by decide, by decide⟩
  exact steady_of_keeps usage_codes call_then_three_ticks mid_period_state (by decide)

/-- C9 (amended). Idle-forced cadence, operations being atomic with respect to one
another. Take a run in which `IdleCount` stays 5, the debounce state never
changes, the endpoint is ready at every call, and `SendNextReport` is called at
least once between any two consecutive start-of-frame ticks; and let no
transmission of the run be caused by a changed report while the countdown is
running, which would not restart the countdown: at the start the stored previous
report equals the built report, or the countdown has already elapsed. Then, once a
report has been transmitted, a report is transmitted exactly by the first
`SendNextReport` call following every 5th tick since the previous transmission,
and by no other call; the same holds from the start of the run when it begins
`n < 5` ticks after a transmission with `5 - n` left on the countdown. And in
every run in which `IdleCount` stays 0, at every point of the run the condition of
the idle-elapsed branch is false, whatever the number of elapsed ticks: a call
there leaves `IdleMSRemaining` unchanged and sets `SendReport` exactly when the
built report differs from the previous one. -/
theorem C9_idle_cadence (sc : Scancodes) (s : State) (es : List Event) :
    ((s.PrevKeyboardReportData = CreateKeyboardReport sc s.debounce_keys zero_report ∨
        s.IdleMSRemaining = 0) →
      (∀ k, (run sc s (es.take k)).IdleCount = 5 ∧
        (run sc s (es.take k)).debounce_keys = s.debounce_keys) →
      (∀ e ∈ es, endpoint_ready e = true) →
      sends_between_ticks false es = true →
      transmits_every 5 none (cadence_log sc s es) = true ∧
      ∀ n, n < 5 → s.IdleMSRemaining = 5 - n →
        transmits_every 5 (some n) (cadence_log sc s es) = true) ∧
    ((∀ k, (run sc s (es.take k)).IdleCount = 0) →
      ∀ (k : Nat) (stack : USB_KeyboardReport_Data_t) (ready : Bool),
        ¬ ((run sc s (es.take k)).IdleCount ≠ 0 ∧ (run sc s (es.take k)).IdleMSRemaining = 0) ∧
        (SendNextReport sc (run sc s (es.take k)) stack ready).state.IdleMSRemaining =
          (run sc s (es.take k)).IdleMSRemaining ∧
        ((SendNextReport sc (run sc s (es.take k)) stack ready).SendReport = true ↔
          CreateKeyboardReport sc (run sc s (es.take k)).debounce_keys stack ≠
            (run sc s (es.take k)).PrevKeyboardReportData)) := by
  constructor
  · intro hstart hsteady hready hbetween
    constructor
    · rcases hstart with hprev | hz
      · exact cadence_before_transmission sc es s false hprev hsteady hready hbetween
      · exact cadence_from_elapsed sc es s false hz hsteady hready hbetween
    · intro n hn hrem
      rcases hstart with hprev | hz
      · exact cadence_after_transmission sc es s n false hprev hsteady hready hbetween
          (by omega) (by omega) hrem
      · omega
  · intro hzero k stack ready
    have h0 := hzero k
    have hcond : ¬ ((run sc s (es.take k)).IdleCount ≠ 0 ∧
        (run sc s (es.take k)).IdleMSRemaining = 0) := fun h => h.1 h0
    refine ⟨hcond, ?_, ?_⟩
    · rw [SendNextReport_idle, if_neg hcond]
    · rw [SendNextReport_SendReport]
      constructor
      · rintro (h | h)
        · exact absurd h hcond
        · exact h
      · exact fun h => Or.inr h

/-- C9 (amended), on a run of seven calls separated by ticks: from the initial
state with an idle period of 5, from the state right after a transmission, and
with the idle period disabled. -/
theorem C9_idle_cadence_witness :
    transmits_every 5 none (cadence_log usage_codes initial_state_idle5 call_then_six_ticks) =
      true ∧
    transmits_every 5 (some 0)
      (cadence_log usage_codes just_transmitted_state call_then_six_ticks) = true ∧
    ¬ ((run usage_codes initial_state_idle0 (call_then_six_ticks.take 5)).IdleCount ≠ 0 ∧
      (run usage_codes initial_state_idle0 (call_then_six_ticks.take 5)).IdleMSRemaining = 0) :=
  ⟨((C9_idle_cadence usage_codes initial_state_idle5 call_then_six_ticks).1 (Or.inr rfl)
      (steady_of_keeps usage_codes call_then_six_ticks initial_state_idle5 (by decide))
      (by decide) (by decide)).1,
    ((C9_idle_cadence usage_codes just_transmitted_state call_then_six_ticks).1 (Or.inl rfl)
      (steady_of_keeps usage_codes call_then_six_ticks just_transmitted_state (by decide))
      (by decide) (by decide)).2 0 (by decide) rfl,
    ((C9_idle_cadence usage_codes initial_state_idle0 call_then_six_ticks).2
      (fun k => (steady_of_keeps usage_codes call_then_six_ticks initial_state_idle0
        (by decide) k).1)
      5 zero_report true).1⟩

/-! ## Lemmas on sequences of scans -/

theorem scan_matrix_seq_cons (pins : Nat → Nat → Nat) (ps : List (Nat → Nat → Nat))
    (dk : Nat → Nat → Nat) :
    scan_matrix_seq (pins :: ps) dk = scan_matrix_seq ps (scan_matrix pins dk) := rfl

theorem scan_matrix_seq_append (ps qs : List (Nat → Nat → Nat)) (dk : Nat → Nat → Nat) :
    scan_matrix_seq (ps ++ qs) dk = scan_matrix_seq qs (scan_matrix_seq ps dk) := by
  simp [scan_matrix_seq, List.foldl_append]

theorem scan_matrix_seq_open (ps : List (Nat → Nat → Nat)) (dk : Nat → Nat → Nat)
    (row col : Nat) (hr : row < NUM_ROWS) (hc : col < NUM_COLS)
    (hd : dk row col ≤ DEBOUNCE_THRESHOLD)
    (hopen : ∀ pins ∈ ps, column_low pins row col = false) :
    scan_matrix_seq ps dk row col = dk row col - ps.length := by
  induction ps generalizing dk with
  | nil => rfl
  | cons pins ps ih =>
    have hfirst : scan_matrix pins dk row col = dk row col - 1 := by
      rw [scan_matrix_apply, if_pos ⟨hr, hc⟩, hopen pins (List.mem_cons_self _ _),
        debounce_step_open _ hd]
    have hle : scan_matrix pins dk row col ≤ DEBOUNCE_THRESHOLD := by
      rw [hfirst]
      omega
    have hrest := ih (scan_matrix pins dk) hle
      (fun q hq => hopen q (List.mem_cons_of_mem _ hq))
    rw [scan_matrix_seq_cons, hrest, hfirst, List.length_cons]
    omega

theorem coords_shipped :
    coords NUM_ROWS NUM_COLS = [(0, 0), (0, 1), (0, 2), (1, 0), (1, 1), (1, 2)] := by
  decide

/-- The report when, of the five keys other than `(0,0)`, only `(1,1)` is pressed. -/
theorem report_of_single_key (sc : Scancodes) (dk : Nat → Nat → Nat)
    (buf : USB_KeyboardReport_Data_t)
    (h11 : dk 1 1 = DEBOUNCE_THRESHOLD) (h01 : dk 0 1 ≠ DEBOUNCE_THRESHOLD)
    (h02 : dk 0 2 ≠ DEBOUNCE_THRESHOLD) (h10 : dk 1 0 ≠ DEBOUNCE_THRESHOLD)
    (h12 : dk 1 2 ≠ DEBOUNCE_THRESHOLD) :
    CreateKeyboardReport sc dk buf =
      { Modifier := 0, Reserved := 0
        KeyCode := fun i => if i.val = 0 then keycodes sc (active_layer dk) 1 1 else 0 } := by
  have hP : pressed_coords NUM_ROWS NUM_COLS dk = [(1, 1)] := by
    unfold pressed_coords
    rw [coords_shipped]
    have e01 : (dk 0 1 == DEBOUNCE_THRESHOLD) = false := beq_eq_false_iff_ne.mpr h01
    have e02 : (dk 0 2 == DEBOUNCE_THRESHOLD) = false := beq_eq_false_iff_ne.mpr h02
    have e10 : (dk 1 0 == DEBOUNCE_THRESHOLD) = false := beq_eq_false_iff_ne.mpr h10
    have e12 : (dk 1 2 == DEBOUNCE_THRESHOLD) = false := beq_eq_false_iff_ne.mpr h12
    simp [List.filter_cons, h11, e01, e02, e10, e12]
  obtain ⟨_, hm, hr, hk⟩ := CreateKeyboardReport_inv sc dk buf
  rw [report_eq_iff]
  refine ⟨hm, hr, ?_⟩
  intro i
  rw [hk i, hP]
  by_cases hi : i.val = 0
  · simp [hi]
  · have : 1 ≤ i.val := by omega
    simp only [hi, if_false, List.map_cons, List.map_nil]
    exact List.getD_eq_default _ _ (by simpa using this)

/-! ## Claim on the end-to-end example -/

/-- C11. End-to-end example on the shipped 2 by 3 matrix with
`DEBOUNCE_THRESHOLD = 10`. From the zero-initialised matrix, after 10 calls of
`scan_matrix` whose samples are closed at `(1,1)` and open at every other
coordinate, `CreateKeyboardReport` yields the report whose slot 0 holds
`keycodes[0][1][1]`, that is `HID_KEYBOARD_SC_2_AND_AT`, every other byte being 0;
after 10 further calls whose samples are closed at `(0,0)` and `(1,1)` and open
elsewhere, it yields the report whose slot 0 holds `keycodes[1][1][1]`, that is
`HID_KEYBOARD_SC_7_AND_AMPERSAND`, every other byte being 0. -/
theorem C11_end_to_end (sc : Scancodes) (ps1 ps2 : List (Nat → Nat → Nat))
    (buf1 buf2 : USB_KeyboardReport_Data_t)
    (hlen1 : ps1.length = 10) (hlen2 : ps2.length = 10)
    (h1 : ∀ pins ∈ ps1, ∀ r c, r < NUM_ROWS → c < NUM_COLS →
      (column_low pins r c = true ↔ (r, c) = (1, 1)))
    (h2 : ∀ pins ∈ ps2, ∀ r c, r < NUM_ROWS → c < NUM_COLS →
      (column_low pins r c = true ↔ (r, c) = (0, 0) ∨ (r, c) = (1, 1))) :
    DEBOUNCE_THRESHOLD = 10 ∧ NUM_ROWS = 2 ∧ NUM_COLS = 3 ∧
    CreateKeyboardReport sc (scan_matrix_seq ps1 initial_state.debounce_keys) buf1 =
      { Modifier := 0, Reserved := 0
        KeyCode := fun i => if i.val = 0 then sc.HID_KEYBOARD_SC_2_AND_AT else 0 } ∧
    keycodes sc 0 1 1 = sc.HID_KEYBOARD_SC_2_AND_AT ∧
    CreateKeyboardReport sc
        (scan_matrix_seq ps2 (scan_matrix_seq ps1 initial_state.debounce_keys)) buf2 =
      { Modifier := 0, Reserved := 0
        KeyCode := fun i => if i.val = 0 then sc.HID_KEYBOARD_SC_7_AND_AMPERSAND else 0 } ∧
    keycodes sc 1 1 1 = sc.HID_KEYBOARD_SC_7_AND_AMPERSAND := by
  have hclosed1 : ∀ pins ∈ ps1, column_low pins 1 1 = true :=
    fun pins hp => (h1 pins hp 1 1 (by decide) (by decide)).mpr rfl
  have hopen1 : ∀ r c, r < NUM_ROWS → c < NUM_COLS → (r, c) ≠ (1, 1) →
      ∀ pins ∈ ps1, column_low pins r c = false := by
    intro r c hr hc hne pins hp
    rw [← Bool.not_eq_true]
    exact fun h => hne ((h1 pins hp r c hr hc).mp h)
  have hclosed2 : ∀ r c, r < NUM_ROWS → c < NUM_COLS → (r, c) = (0, 0) ∨ (r, c) = (1, 1) →
      ∀ pins ∈ ps2, column_low pins r c = true :=
    fun r c hr hc h pins hp => (h2 pins hp r c hr hc).mpr h
  have hopen2 : ∀ r c, r < NUM_ROWS → c < NUM_COLS → (r, c) ≠ (0, 0) → (r, c) ≠ (1, 1) →
      ∀ pins ∈ ps2, column_low pins r c = false := by
    intro r c hr hc hne0 hne1 pins hp
    rw [← Bool.not_eq_true]
    intro h
    rcases (h2 pins hp r c hr hc).mp h with h | h
    · exact hne0 h
    · exact hne1 h
  -- the matrix after the first ten scans
  have a11 : scan_matrix_seq ps1 initial_state.debounce_keys 1 1 = DEBOUNCE_THRESHOLD := by
    rw [scan_matrix_seq_closed ps1 _ 1 1 (by decide) (by decide) (Nat.zero_le _) hclosed1, hlen1]
    rfl
  have azero : ∀ r c, r < NUM_ROWS → c < NUM_COLS → (r, c) ≠ (1, 1) →
      scan_matrix_seq ps1 initial_state.debounce_keys r c = 0 := by
    intro r c hr hc hne
    rw [scan_matrix_seq_open ps1 _ r c hr hc (Nat.zero_le _) (hopen1 r c hr hc hne)]
    exact Nat.zero_sub _
  have hT : (0 : Nat) ≠ DEBOUNCE_THRESHOLD := by decide
  have a00 := azero 0 0 (by decide) (by decide) (by decide)
  have a01 := azero 0 1 (by decide) (by decide) (by decide)
  have a02 := azero 0 2 (by decide) (by decide) (by decide)
  have a10 := azero 1 0 (by decide) (by decide) (by decide)
  have a12 := azero 1 2 (by decide) (by decide) (by decide)
  have hL1 : active_layer (scan_matrix_seq ps1 initial_state.debounce_keys) = 0 := by
    rw [active_layer_eq, a00, if_neg hT]
  -- the matrix after the next ten scans
  have b11 : scan_matrix_seq ps2 (scan_matrix_seq ps1 initial_state.debounce_keys) 1 1 =
      DEBOUNCE_THRESHOLD := by
    rw [scan_matrix_seq_closed ps2 _ 1 1 (by decide) (by decide) (by rw [a11])
      (hclosed2 1 1 (by decide) (by decide) (Or.inr rfl)), hlen2, a11]
    rfl
  have b00 : scan_matrix_seq ps2 (scan_matrix_seq ps1 initial_state.debounce_keys) 0 0 =
      DEBOUNCE_THRESHOLD := by
    rw [scan_matrix_seq_closed ps2 _ 0 0 (by decide) (by decide) (by rw [a00]; decide)
      (hclosed2 0 0 (by decide) (by decide) (Or.inl rfl)), hlen2, a00]
    rfl
  have bzero : ∀ r c, r < NUM_ROWS → c < NUM_COLS → (r, c) ≠ (0, 0) → (r, c) ≠ (1, 1) →
      scan_matrix_seq ps2 (scan_matrix_seq ps1 initial_state.debounce_keys) r c = 0 := by
    intro r c hr hc hne0 hne1
    have hz := azero r c hr hc hne1
    rw [scan_matrix_seq_open ps2 _ r c hr hc (by rw [hz]; decide) (hopen2 r c hr hc hne0 hne1),
      hz]
    exact Nat.zero_sub _
  have b01 := bzero 0 1 (by decide) (by decide) (by decide) (by decide)
  have b02 := bzero 0 2 (by decide) (by decide) (by decide) (by decide)
  have b10 := bzero 1 0 (by decide) (by decide) (by decide) (by decide)
  have b12 := bzero 1 2 (by decide) (by decide) (by decide) (by decide)
  have hL2 : active_layer
      (scan_matrix_seq ps2 (scan_matrix_seq ps1 initial_state.debounce_keys)) = 1 := by
    rw [active_layer_eq, b00, if_pos rfl]
  refine ⟨rfl, rfl, rfl, ?_, rfl, ?_, rfl⟩
  · rw [report_of_single_key sc _ buf1 a11 (by rw [a01]; exact hT) (by rw [a02]; exact hT)
      (by rw [a10]; exact hT) (by rw [a12]; exact hT), hL1]
    rfl
  · rw [report_of_single_key sc _ buf2 b11 (by rw [b01]; exact hT) (by rw [b02]; exact hT)
      (by rw [b10]; exact hT) (by rw [b12]; exact hT), hL2]
    rfl

/-- C11, with ten scans that close `(1,1)` only, then ten that close `(0,0)` and
`(1,1)`. -/
theorem C11_end_to_end_witness :
    CreateKeyboardReport usage_codes
        (scan_matrix_seq (List.replicate 10 (pins_closed_at [(0, 0), (1, 1)]))
          (scan_matrix_seq (List.replicate 10 (pins_closed_at [(1, 1)]))
            initial_state.debounce_keys)) zero_report =
      { Modifier := 0, Reserved := 0
        KeyCode := fun i =>
          if i.val = 0 then usage_codes.HID_KEYBOARD_SC_7_AND_AMPERSAND else 0 } :=
  (C11_end_to_end usage_codes (List.replicate 10 (pins_closed_at [(1, 1)]))
    (List.replicate 10 (pins_closed_at [(0, 0), (1, 1)])) zero_report zero_report
    (by decide) (by decide)
    (by
      intro pins hp r c hr hc
      rw [List.eq_of_mem_replicate hp]
      unfold NUM_ROWS at hr
      unfold NUM_COLS at hc
      interval_cases r <;> interval_cases c <;> decide)
    (by
      intro pins hp r c hr hc
      rw [List.eq_of_mem_replicate hp]
      unfold NUM_ROWS at hr
      unfold NUM_COLS at hc
      interval_cases r <;> interval_cases c <;> decide)).2.2.2.2.2.1

/-! ## Claims on the comparison baseline -/

/-- The shape of the result of `SendNextReport` once its decision is known. -/
theorem SendNextReport_outcome (sc : Scancodes) (s : State)
    (stack : USB_KeyboardReport_Data_t) (ready : Bool) :
    (SendNextReport sc s stack ready).state.PrevKeyboardReportData =
      (if ready = true ∧ (SendNextReport sc s stack ready).SendReport = true
        then CreateKeyboardReport sc s.debounce_keys stack
        else s.PrevKeyboardReportData) ∧
    (SendNextReport sc s stack ready).written =
      (if ready = true ∧ (SendNextReport sc s stack ready).SendReport = true
        then some (CreateKeyboardReport sc s.debounce_keys stack)
        else none) := by
  unfold SendNextReport
  by_cases hidle : s.IdleCount ≠ 0 ∧ s.IdleMSRemaining = 0
  · cases ready <;> simp [hidle]
  · simp only [hidle, if_false]
    generalize decide (memcmp (report_bytes s.PrevKeyboardReportData)
      (report_bytes (CreateKeyboardReport sc s.debounce_keys stack)) sizeof_report ≠ 0) = b
    cases ready <;> cases b <;> simp

/-- C12. The comparison baseline changes only on an actual transmission. For every
state, after `SendNextReport` the stored `PrevKeyboardReportData` is the newly built
report if the endpoint was ready and `SendReport` was true, which is exactly the
case in which the report is written to the endpoint, and is unchanged in every
other case; in particular it is unchanged whenever the endpoint was not ready,
whatever `SendReport` was. -/
theorem C12_baseline_follows_transmission (sc : Scancodes) (s : State)
    (stack : USB_KeyboardReport_Data_t) (ready : Bool) :
    (SendNextReport sc s stack ready).state.PrevKeyboardReportData =
      (if ready = true ∧ (SendNextReport sc s stack ready).SendReport = true
        then CreateKeyboardReport sc s.debounce_keys stack
        else s.PrevKeyboardReportData) ∧
    (SendNextReport sc s stack ready).written =
      (if ready = true ∧ (SendNextReport sc s stack ready).SendReport = true
        then some (CreateKeyboardReport sc s.debounce_keys stack)
        else none) ∧
    (SendNextReport sc s stack false).state.PrevKeyboardReportData =
      s.PrevKeyboardReportData ∧
    (SendNextReport sc s stack false).written = none := by
  have h := SendNextReport_outcome sc s stack ready
  have hf := SendNextReport_outcome sc s stack false
  refine ⟨h.1, h.2, ?_, ?_⟩
  · rw [hf.1]
    simp
  · rw [hf.2]
    simp

/-- A transmission that is due because the report changed, and is deferred because
the endpoint is not ready, is decided again at the next call: the baseline has not
moved. -/
theorem deferred_change_is_retried (sc : Scancodes) (s : State)
    (stack stack2 : USB_KeyboardReport_Data_t) (ready2 : Bool)
    (hidle : ¬ (s.IdleCount ≠ 0 ∧ s.IdleMSRemaining = 0))
    (hsend : (SendNextReport sc s stack false).SendReport = true) :
    (SendNextReport sc (SendNextReport sc s stack false).state stack2 ready2).SendReport =
      true := by
  have hdiff : CreateKeyboardReport sc s.debounce_keys stack ≠ s.PrevKeyboardReportData := by
    rcases (SendNextReport_SendReport sc s stack false).mp hsend with h | h
    · exact absurd h hidle
    · exact h
  rw [SendNextReport_SendReport]
  right
  rw [SendNextReport_debounce_keys, (SendNextReport_outcome sc s stack false).1]
  simpa using hdiff

/-- C13 fails on the code at the initial state. The idle period has elapsed
(`IdleCount = 500`, `IdleMSRemaining = 0`) and the built report equals the previous
one. A first call with the endpoint not ready decides `SendReport = true`, writes
nothing, and restarts the countdown; the next call, with the same debounce state,
no tick in between and the endpoint ready, decides `SendReport = false` and writes
nothing: the idle-forced report is dropped. -/
theorem C13_idle_report_dropped :
    (SendNextReport usage_codes initial_state zero_report false).SendReport = true ∧
    (SendNextReport usage_codes initial_state zero_report false).written.isSome = false ∧
    (SendNextReport usage_codes initial_state zero_report false).state.IdleMSRemaining = 500 ∧
    (SendNextReport usage_codes
      (SendNextReport usage_codes initial_state zero_report false).state
      zero_report true).SendReport = false ∧
    (SendNextReport usage_codes
      (SendNextReport usage_codes initial_state zero_report false).state
      zero_report true).written.isSome = false := by
  decide

/-! ## Claims on release and on registration -/

theorem is_key_pressed_eq (dk : Nat → Nat → Nat) (row col : Nat)
    (hr : row < NUM_ROWS) (hc : col < NUM_COLS) :
    is_key_pressed dk row col = (dk row col == DEBOUNCE_THRESHOLD) := by
  unfold NUM_ROWS at hr
  unfold NUM_COLS at hc
  unfold is_key_pressed
  rw [Nat.mod_eq_of_lt (by omega), Nat.mod_eq_of_lt (by omega)]

set_option maxRecDepth 100000 in
/-- C14, as stated, fails: release is not debounced. After ten closed samples the
key `(1,1)` is pressed; after one further scan in which its sample is open, the
counter is 9 and `is_key_pressed` is false. -/
theorem C14_counterexample :
    is_key_pressed
      (scan_matrix_seq (List.replicate 10 (pins_closed_at [(1, 1)]))
        initial_state.debounce_keys) 1 1 = true ∧
    column_low (pins_closed_at []) 1 1 = false ∧
    scan_matrix (pins_closed_at [])
      (scan_matrix_seq (List.replicate 10 (pins_closed_at [(1, 1)]))
        initial_state.debounce_keys) 1 1 = 9 ∧
    is_key_pressed
      (scan_matrix (pins_closed_at [])
        (scan_matrix_seq (List.replicate 10 (pins_closed_at [(1, 1)]))
          initial_state.debounce_keys)) 1 1 = false := by
  decide

/-- C14 (amended). Release is registered at the first open sample. For every
coordinate of the matrix whose counter is saturated at `DEBOUNCE_THRESHOLD`, after
one subsequent call of `scan_matrix` in which its sample is open the counter is
`DEBOUNCE_THRESHOLD - 1` and `is_key_pressed` is false; after `k` open samples in a
row, `1 <= k <= DEBOUNCE_THRESHOLD`, the counter is `DEBOUNCE_THRESHOLD - k` and the
key is still released; and after these `k` open samples the key is pressed again
after `j` closed samples in a row exactly when `j >= k`. So releasing takes one
scan cycle, and only a release that has decayed to 0 costs the full
`DEBOUNCE_THRESHOLD` cycles to register again. -/
theorem C14_release_at_first_open (opens closeds : List (Nat → Nat → Nat))
    (dk : Nat → Nat → Nat) (row col : Nat)
    (hr : row < NUM_ROWS) (hc : col < NUM_COLS)
    (hd : dk row col = DEBOUNCE_THRESHOLD)
    (hopen : ∀ pins ∈ opens, column_low pins row col = false)
    (hclosed : ∀ pins ∈ closeds, column_low pins row col = true)
    (hk1 : 1 ≤ opens.length) (hk : opens.length ≤ DEBOUNCE_THRESHOLD) :
    (∀ pins : Nat → Nat → Nat, column_low pins row col = false →
      scan_matrix pins dk row col = DEBOUNCE_THRESHOLD - 1 ∧
      is_key_pressed (scan_matrix pins dk) row col = false) ∧
    scan_matrix_seq opens dk row col = DEBOUNCE_THRESHOLD - opens.length ∧
    is_key_pressed (scan_matrix_seq opens dk) row col = false ∧
    (is_key_pressed (scan_matrix_seq (opens ++ closeds) dk) row col = true ↔
      opens.length ≤ closeds.length) := by
  have hle : dk row col ≤ DEBOUNCE_THRESHOLD := by rw [hd]
  have hafter : scan_matrix_seq opens dk row col = DEBOUNCE_THRESHOLD - opens.length := by
    rw [scan_matrix_seq_open opens dk row col hr hc hle hopen, hd]
  refine ⟨?_, hafter, ?_, ?_⟩
  · intro pins hp
    have h1 : scan_matrix pins dk row col = DEBOUNCE_THRESHOLD - 1 := by
      rw [scan_matrix_apply, if_pos ⟨hr, hc⟩, hp, debounce_step_open _ hle, hd]
    refine ⟨h1, ?_⟩
    rw [is_key_pressed_eq _ _ _ hr hc, h1]
    decide
  · rw [is_key_pressed_eq _ _ _ hr hc, hafter, beq_eq_false_iff_ne]
    unfold DEBOUNCE_THRESHOLD at hk ⊢
    omega
  · rw [is_key_pressed_eq _ _ _ hr hc, scan_matrix_seq_append,
      scan_matrix_seq_closed closeds _ row col hr hc (by rw [hafter]; omega) hclosed, hafter,
      beq_iff_eq]
    unfold DEBOUNCE_THRESHOLD at hk ⊢
    omega

/-- C14 (amended), at the key `(1,1)`: pressed, then one open sample. -/
theorem C14_release_at_first_open_witness :
    is_key_pressed (scan_matrix_seq [pins_closed_at []] (pressed_at [(1, 1)])) 1 1 = false :=
  (C14_release_at_first_open [pins_closed_at []] [pins_closed_at [(1, 1)]]
    (pressed_at [(1, 1)]) 1 1 (by decide) (by decide) (by decide)
    (by
      intro pins hp
      rw [List.mem_singleton.mp hp]
      decide)
    (by
      intro pins hp
      rw [List.mem_singleton.mp hp]
      decide)
    (by decide) (by decide)).2.2.1

theorem debounce_step_le_add (pressed : Bool) (c : Nat) :
    debounce_step pressed c ≤ c + (if pressed = true then 1 else 0) := by
  unfold debounce_step DEBOUNCE_THRESHOLD
  cases pressed
  · simp only [Bool.false_eq_true, if_false]
    split <;> omega
  · simp only [if_true]
    split <;> omega

theorem scan_matrix_le_add (pins dk : Nat → Nat → Nat) (r c : Nat) :
    scan_matrix pins dk r c ≤ dk r c + (if column_low pins r c = true then 1 else 0) := by
  rw [scan_matrix_apply]
  split
  · exact debounce_step_le_add _ _
  · omega

theorem closed_count_cons (pins : Nat → Nat → Nat) (ps : List (Nat → Nat → Nat))
    (row col : Nat) :
    closed_count (pins :: ps) row col =
      (if column_low pins row col = true then 1 else 0) + closed_count ps row col := by
  unfold closed_count
  rw [List.filter_cons]
  split
  · rw [List.length_cons]
    omega
  · omega

theorem closed_count_le_length (ps : List (Nat → Nat → Nat)) (row col : Nat) :
    closed_count ps row col ≤ ps.length :=
  List.length_filter_le _ _

theorem scan_matrix_seq_le (ps : List (Nat → Nat → Nat)) (dk : Nat → Nat → Nat)
    (row col : Nat) (h : dk row col ≤ DEBOUNCE_THRESHOLD) :
    scan_matrix_seq ps dk row col ≤ DEBOUNCE_THRESHOLD := by
  induction ps generalizing dk with
  | nil => exact h
  | cons pins ps ih =>
    rw [scan_matrix_seq_cons]
    apply ih
    rw [scan_matrix_apply]
    split
    · exact debounce_step_le _ _ h
    · exact h

/-- A counter never exceeds its start value plus the number of closed samples. -/
theorem scan_matrix_seq_le_closed_count (ps : List (Nat → Nat → Nat)) (dk : Nat → Nat → Nat)
    (row col : Nat) :
    scan_matrix_seq ps dk row col ≤ dk row col + closed_count ps row col := by
  induction ps generalizing dk with
  | nil => simp [scan_matrix_seq, closed_count]
  | cons pins ps ih =>
    have h1 := ih (scan_matrix pins dk)
    have h2 := scan_matrix_le_add pins dk row col
    rw [scan_matrix_seq_cons, closed_count_cons]
    omega

theorem closed_count_append_singleton (ps : List (Nat → Nat → Nat)) (pins : Nat → Nat → Nat)
    (row col : Nat) :
    closed_count (ps ++ [pins]) row col =
      closed_count ps row col + (if column_low pins row col = true then 1 else 0) := by
  unfold closed_count
  rw [List.filter_append, List.length_append, List.filter_cons]
  split <;> simp

set_option maxRecDepth 100000 in
/-- C15, as stated, fails: the closed samples need not be consecutive. For the key
`(1,1)`, from counter 0, after ten closed samples, one open sample and one closed
sample, `is_key_pressed` is false before the twelfth scan and true after it, yet
the eleventh scan, one of the ten most recent, had an open sample. -/
theorem C15_counterexample :
    bounce_samples.map (fun pins => column_low pins 1 1) =
      [true, true, true, true, true, true, true, true, true, true, false, true] ∧
    is_key_pressed (scan_matrix_seq (bounce_samples.take 11) initial_state.debounce_keys) 1 1 =
      false ∧
    is_key_pressed (scan_matrix_seq (bounce_samples.take 12) initial_state.debounce_keys) 1 1 =
      true := by
  decide

/-- C15 (amended). A key registers as pressed only after `DEBOUNCE_THRESHOLD` closed
samples, which need not be consecutive. For every coordinate of the matrix and
every sequence of `scan_matrix` calls starting from counter 0, if `is_key_pressed`
becomes true at some scan (false before it, true after it), then the sample of
that scan was closed, the counter was `DEBOUNCE_THRESHOLD - 1` before it, and at
least `DEBOUNCE_THRESHOLD` of the scans up to and including that one had a closed
sample, so that at least `DEBOUNCE_THRESHOLD` scans were made. -/
theorem C15_registers_after_threshold_closed (ps : List (Nat → Nat → Nat))
    (pins : Nat → Nat → Nat) (dk : Nat → Nat → Nat) (row col : Nat)
    (hr : row < NUM_ROWS) (hc : col < NUM_COLS) (h0 : dk row col = 0)
    (hbefore : is_key_pressed (scan_matrix_seq ps dk) row col = false)
    (hafter : is_key_pressed (scan_matrix_seq (ps ++ [pins]) dk) row col = true) :
    column_low pins row col = true ∧
    scan_matrix_seq ps dk row col = DEBOUNCE_THRESHOLD - 1 ∧
    DEBOUNCE_THRESHOLD ≤ closed_count (ps ++ [pins]) row col ∧
    DEBOUNCE_THRESHOLD ≤ (ps ++ [pins]).length := by
  rw [is_key_pressed_eq _ _ _ hr hc, beq_eq_false_iff_ne] at hbefore
  rw [is_key_pressed_eq _ _ _ hr hc, beq_iff_eq, scan_matrix_seq_append] at hafter
  have hstep : debounce_step (column_low pins row col) (scan_matrix_seq ps dk row col) =
      DEBOUNCE_THRESHOLD := by
    have := scan_matrix_apply pins (scan_matrix_seq ps dk) row col
    rw [if_pos ⟨hr, hc⟩] at this
    rw [← this]
    exact hafter
  have hbound := scan_matrix_seq_le_closed_count ps dk row col
  rw [h0, Nat.zero_add] at hbound
  have hcount := closed_count_append_singleton ps pins row col
  have hlen := closed_count_le_length (ps ++ [pins]) row col
  have hmax := scan_matrix_seq_le ps dk row col (by rw [h0]; exact Nat.zero_le _)
  unfold debounce_step at hstep
  unfold DEBOUNCE_THRESHOLD at *
  cases hp : column_low pins row col
  · rw [hp] at hstep
    simp only [Bool.false_eq_true, if_false] at hstep
    split at hstep
    · omega
    · exact absurd hstep hbefore
  · rw [hp] at hstep hcount
    simp only [if_true] at hstep hcount
    split at hstep
    · refine ⟨rfl, ?_, ?_, ?_⟩ <;> omega
    · exact absurd hstep hbefore

set_option maxRecDepth 100000 in
/-- C15 (amended), at the twelfth scan of the bouncing sequence. -/
theorem C15_registers_after_threshold_closed_witness :
    DEBOUNCE_THRESHOLD ≤
      closed_count (bounce_samples.take 11 ++ [pins_closed_at [(1, 1)]]) 1 1 :=
  (C15_registers_after_threshold_closed (bounce_samples.take 11) (pins_closed_at [(1, 1)])
    initial_state.debounce_keys 1 1 (by decide) (by decide) rfl (by decide) (by decide)).2.2.1

/-! ## Claims on the idle countdown and on noise immunity -/

/-- C16. Idle countdown invariant, `IdleMSRemaining` being a `uint16_t` value. The
start-of-frame tick maps a value `v` to `v - 1` when `v > 0` and leaves 0 at 0,
without wrapping. `SendNextReport` either leaves it unchanged or, only in the
branch `IdleCount != 0` and `IdleMSRemaining == 0`, sets it to the current
`IdleCount`; the same holds of `HID_Task`, which at most calls it. `scan_matrix`,
`CreateKeyboardReport` and the Set Idle request never modify it, nor does any other
host request. So every operation leaves it unchanged, decrements it toward 0, or
sets it to `IdleCount`. -/
theorem C16_idle_countdown (sc : Scancodes) (s : State) (h16 : s.IdleMSRemaining < 65536) :
    (EVENT_USB_Device_StartOfFrame s).IdleMSRemaining =
      (if s.IdleMSRemaining > 0 then s.IdleMSRemaining - 1 else 0) ∧
    (∀ (stack : USB_KeyboardReport_Data_t) (ready : Bool),
      (SendNextReport sc s stack ready).state.IdleMSRemaining =
        if s.IdleCount ≠ 0 ∧ s.IdleMSRemaining = 0 then s.IdleCount else s.IdleMSRemaining) ∧
    (∀ (configured : Bool) (stack : USB_KeyboardReport_Data_t) (ready : Bool),
      (HID_Task sc s configured stack ready).IdleMSRemaining = s.IdleMSRemaining ∨
        ((s.IdleCount ≠ 0 ∧ s.IdleMSRemaining = 0) ∧
          (HID_Task sc s configured stack ready).IdleMSRemaining = s.IdleCount)) ∧
    (∀ pins : Nat → Nat → Nat,
      (step sc s (Event.scan pins)).IdleMSRemaining = s.IdleMSRemaining) ∧
    (∀ stack : USB_KeyboardReport_Data_t,
      (step sc s (Event.get_report stack)).IdleMSRemaining = s.IdleMSRemaining) ∧
    (∀ wValue : Nat, (HID_REQ_SetIdle s wValue).IdleMSRemaining = s.IdleMSRemaining) ∧
    (∀ e : Event,
      (step sc s e).IdleMSRemaining = s.IdleMSRemaining ∨
      (0 < s.IdleMSRemaining ∧ (step sc s e).IdleMSRemaining = s.IdleMSRemaining - 1) ∨
      ((s.IdleCount ≠ 0 ∧ s.IdleMSRemaining = 0) ∧
        (step sc s e).IdleMSRemaining = s.IdleCount)) := by
  have htick : (EVENT_USB_Device_StartOfFrame s).IdleMSRemaining =
      (if s.IdleMSRemaining > 0 then s.IdleMSRemaining - 1 else 0) := by
    unfold EVENT_USB_Device_StartOfFrame
    by_cases hz : s.IdleMSRemaining = 0
    · simp [hz]
    · have hpos : s.IdleMSRemaining > 0 := Nat.pos_of_ne_zero hz
      simp only [ne_eq, hz, not_false_eq_true, if_true, hpos]
      omega
  have hsend := SendNextReport_idle sc s
  have htask : ∀ (configured : Bool) (stack : USB_KeyboardReport_Data_t) (ready : Bool),
      (HID_Task sc s configured stack ready).IdleMSRemaining = s.IdleMSRemaining ∨
        ((s.IdleCount ≠ 0 ∧ s.IdleMSRemaining = 0) ∧
          (HID_Task sc s configured stack ready).IdleMSRemaining = s.IdleCount) := by
    intro configured stack ready
    cases configured
    · exact Or.inl rfl
    · simp only [HID_Task, if_true]
      rw [hsend stack ready]
      by_cases hidle : s.IdleCount ≠ 0 ∧ s.IdleMSRemaining = 0
      · exact Or.inr ⟨hidle, by rw [if_pos hidle]⟩
      · exact Or.inl (by rw [if_neg hidle])
  refine ⟨htick, hsend, htask, fun _ => rfl, fun _ => rfl, fun _ => rfl, ?_⟩
  intro e
  cases e with
  | scan pins => exact Or.inl rfl
  | hid_task configured stack ready =>
    rcases htask configured stack ready with h | h
    · exact Or.inl h
    · exact Or.inr (Or.inr h)
  | start_of_frame =>
    by_cases hz : s.IdleMSRemaining = 0
    · left
      show (EVENT_USB_Device_StartOfFrame s).IdleMSRemaining = s.IdleMSRemaining
      rw [htick, hz]
      rfl
    · right
      left
      have hpos : 0 < s.IdleMSRemaining := Nat.pos_of_ne_zero hz
      refine ⟨hpos, ?_⟩
      show (EVENT_USB_Device_StartOfFrame s).IdleMSRemaining = s.IdleMSRemaining - 1
      rw [htick, if_pos hpos]
  | get_report stack => exact Or.inl rfl
  | set_protocol w => exact Or.inl rfl
  | set_idle w => exact Or.inl rfl
  | other_request => exact Or.inl rfl

/-- C16, at the state right after a transmission: a tick takes 5 to 4. -/
theorem C16_idle_countdown_witness :
    (EVENT_USB_Device_StartOfFrame just_transmitted_state).IdleMSRemaining =
      (if just_transmitted_state.IdleMSRemaining > 0
        then just_transmitted_state.IdleMSRemaining - 1 else 0) :=
  (C16_idle_countdown usage_codes just_transmitted_state (by decide)).1

/-- C17. Noise immunity lower bound. For every coordinate of the matrix whose
counter is 0, after any `n < DEBOUNCE_THRESHOLD` calls of `scan_matrix` with
arbitrary samples the counter is at most `n` and `is_key_pressed` is false; so the
key is not among the coordinates that `CreateKeyboardReport` reports, and, the
coordinate being `(0,0)`, the layer stays 0. -/
theorem C17_noise_immunity (ps : List (Nat → Nat → Nat)) (dk : Nat → Nat → Nat)
    (row col : Nat) (hr : row < NUM_ROWS) (hc : col < NUM_COLS) (h0 : dk row col = 0)
    (hn : ps.length < DEBOUNCE_THRESHOLD) :
    scan_matrix_seq ps dk row col ≤ ps.length ∧
    is_key_pressed (scan_matrix_seq ps dk) row col = false ∧
    (row, col) ∉ pressed_coords NUM_ROWS NUM_COLS (scan_matrix_seq ps dk) ∧
    ((row, col) = (0, 0) → active_layer (scan_matrix_seq ps dk) = 0) := by
  have hbound : scan_matrix_seq ps dk row col ≤ ps.length := by
    have h1 := scan_matrix_seq_le_closed_count ps dk row col
    have h2 := closed_count_le_length ps row col
    omega
  have hne : scan_matrix_seq ps dk row col ≠ DEBOUNCE_THRESHOLD := by omega
  refine ⟨hbound, ?_, ?_, ?_⟩
  · rw [is_key_pressed_eq _ _ _ hr hc, beq_eq_false_iff_ne]
    exact hne
  · intro hmem
    exact hne (mem_pressed_coords.mp hmem).2.2.2
  · intro h00
    simp only [Prod.mk.injEq] at h00
    rw [active_layer_eq, if_neg]
    rw [h00.1, h00.2] at hne
    exact hne

/-- C17, at nine scans with every switch closed, from the zero matrix. -/
theorem C17_noise_immunity_witness :
    is_key_pressed
      (scan_matrix_seq (List.replicate 9 (fun _ _ => 0)) initial_state.debounce_keys) 0 0 =
      false :=
  (C17_noise_immunity (List.replicate 9 (fun _ _ => 0)) initial_state.debounce_keys 0 0
    (by decide) (by decide) rfl (by decide)).2.1

/-! ## Claim on the idle period requests -/

theorem and_high_byte (w : Nat) (hw : w < 65536) : w &&& 0xFF00 = (w >>> 8) <<< 8 := by
  apply Nat.eq_of_testBit_eq
  intro i
  have hmask : (0xFF00 : Nat) = (2 ^ 8 - 1) <<< 8 := by decide
  rw [Nat.testBit_and, hmask, Nat.testBit_shiftLeft, Nat.testBit_shiftLeft,
    Nat.testBit_two_pow_sub_one, Nat.testBit_shiftRight]
  by_cases h8 : 8 ≤ i
  · have e : 8 + (i - 8) = i := by omega
    rw [e]
    by_cases h16 : i < 16
    · have : i - 8 < 8 := by omega
      simp [h8, this]
    · have hlt : w < 2 ^ i := by
        have : 2 ^ 16 ≤ 2 ^ i := Nat.pow_le_pow_right (by decide) (by omega)
        omega
      simp [Nat.testBit_lt_two_pow hlt]
  · simp [h8]

theorem high_byte_shifted (w : Nat) (hw : w < 65536) :
    (w &&& 0xFF00) >>> 6 = 4 * (w >>> 8) := by
  rw [and_high_byte w hw, Nat.shiftLeft_eq, Nat.shiftRight_eq_div_pow,
    Nat.shiftRight_eq_div_pow]
  omega

/-- C19. Set Idle and Get Idle convert units and round-trip. For every 16-bit
`wValue`, the Set Idle handler stores `IdleCount = (wValue & 0xFF00) >> 6`, which
fits the `uint16_t` and equals `4 * (wValue >> 8)`, at most 1020; a following Get
Idle writes the byte `IdleCount >> 2`, which is below 256, so that narrowing it to
eight bits loses nothing, and equals `wValue >> 8`; and two values of `wValue` with
the same high byte leave the same state, so the low byte has no effect. -/
theorem C19_idle_round_trip (s : State) (wValue : Nat) (hw : wValue < 65536) :
    (HID_REQ_SetIdle s wValue).IdleCount = (wValue &&& 0xFF00) >>> 6 ∧
    (HID_REQ_SetIdle s wValue).IdleCount = 4 * (wValue >>> 8) ∧
    (HID_REQ_SetIdle s wValue).IdleCount ≤ 1020 ∧
    (HID_REQ_SetIdle s wValue).IdleCount >>> 2 < 256 ∧
    HID_REQ_GetIdle (HID_REQ_SetIdle s wValue) = wValue >>> 8 ∧
    ∀ w2 : Nat, w2 < 65536 → w2 >>> 8 = wValue >>> 8 →
      HID_REQ_SetIdle s w2 = HID_REQ_SetIdle s wValue := by
  have hval := high_byte_shifted wValue hw
  have hbyte : wValue >>> 8 < 256 := by
    rw [Nat.shiftRight_eq_div_pow]
    omega
  have hcount : (HID_REQ_SetIdle s wValue).IdleCount = 4 * (wValue >>> 8) := by
    show ((wValue &&& 0xFF00) >>> 6) % 65536 = 4 * (wValue >>> 8)
    rw [hval]
    omega
  have hget : (HID_REQ_SetIdle s wValue).IdleCount >>> 2 = wValue >>> 8 := by
    rw [hcount, Nat.shiftRight_eq_div_pow]
    omega
  refine ⟨by rw [hcount, hval], hcount, by omega, by omega, ?_, ?_⟩
  · show ((HID_REQ_SetIdle s wValue).IdleCount >>> 2) % 256 = wValue >>> 8
    rw [hget]
    omega
  · intro w2 hw2 hsame
    have h2 := high_byte_shifted w2 hw2
    show ({ s with IdleCount := ((w2 &&& 0xFF00) >>> 6) % 65536 } : State) =
      { s with IdleCount := ((wValue &&& 0xFF00) >>> 6) % 65536 }
    rw [h2, hval, hsame]

/-- C19, at `wValue = 0x7D12`: the idle byte 125 gives 500 ms and reads back as
125. -/
theorem C19_idle_round_trip_witness :
    (HID_REQ_SetIdle initial_state 0x7D12).IdleCount = 4 * (0x7D12 >>> 8) ∧
    HID_REQ_GetIdle (HID_REQ_SetIdle initial_state 0x7D12) = 0x7D12 >>> 8 :=
  ⟨(C19_idle_round_trip initial_state 0x7D12 (by decide)).2.1,
   (C19_idle_round_trip initial_state 0x7D12 (by decide)).2.2.2.2.1⟩

/-! ## Lemmas on the checked functions -/

theorem fold_checked_sim {α β γ : Type} (f : β → α → Option β) (g : γ → α → γ)
    (R : β → γ → Prop) (l : List α)
    (hstep : ∀ a ∈ l, ∀ b c, R b c → ∃ b1, f b a = some b1 ∧ R b1 (g c a)) :
    ∀ b c, R b c → ∃ b1, fold_checked f l b = some b1 ∧ R b1 (l.foldl g c) := by
  induction l with
  | nil =>
    intro b c h
    exact ⟨b, rfl, h⟩
  | cons a l ih =>
    intro b c h
    obtain ⟨b1, hb1, hR⟩ := hstep a (List.mem_cons_self _ _) b c h
    obtain ⟨b2, hb2, hR2⟩ :=
      ih (fun x hx => hstep x (List.mem_cons_of_mem _ hx)) b1 (g c a) hR
    refine ⟨b2, ?_, hR2⟩
    simp only [fold_checked, hb1]
    exact hb2

theorem well_shaped_cases (dk : List (List Nat)) (h : well_shaped dk) :
    ∃ a b c d e f, dk = [[a, b, c], [d, e, f]] := by
  obtain ⟨hlen, hrows⟩ := h
  obtain ⟨r0, r1, rfl⟩ := List.length_eq_two.mp hlen
  have h0 := hrows r0 (by simp)
  have h1 := hrows r1 (by simp)
  obtain ⟨a, b, c, rfl⟩ := List.length_eq_three.mp h0
  obtain ⟨d, e, f, rfl⟩ := List.length_eq_three.mp h1
  exact ⟨a, b, c, d, e, f, rfl⟩

theorem matrix_get_shaped (dk : List (List Nat)) (h : well_shaped dk) (row col : Nat)
    (hr : row < NUM_ROWS) (hc : col < NUM_COLS) :
    matrix_get dk row col = some (matrix_fun dk row col) := by
  obtain ⟨a, b, c, d, e, f, rfl⟩ := well_shaped_cases dk h
  unfold NUM_ROWS at hr
  unfold NUM_COLS at hc
  interval_cases row <;> interval_cases col <;> rfl

theorem matrix_fun_apply (a b c d e f : Nat) (r k : Nat) :
    matrix_fun [[a, b, c], [d, e, f]] r k =
      if r = 0 ∧ k = 0 then a else if r = 0 ∧ k = 1 then b else if r = 0 ∧ k = 2 then c
      else if r = 1 ∧ k = 0 then d else if r = 1 ∧ k = 1 then e
      else if r = 1 ∧ k = 2 then f else 0 := by
  rcases r with _ | _ | r <;> rcases k with _ | _ | _ | k <;>
    simp [matrix_fun, matrix_get]

theorem matrix_set_shaped (dk : List (List Nat)) (h : well_shaped dk) (row col v : Nat)
    (hr : row < NUM_ROWS) (hc : col < NUM_COLS) :
    ∃ dk1, matrix_set dk row col v = some dk1 ∧ well_shaped dk1 ∧
      matrix_fun dk1 = store_counter (matrix_fun dk) row col v := by
  obtain ⟨a, b, c, d, e, f, rfl⟩ := well_shaped_cases dk h
  unfold NUM_ROWS at hr
  unfold NUM_COLS at hc
  interval_cases row <;> interval_cases col <;>
    refine ⟨_, rfl, by simp [well_shaped, NUM_ROWS, NUM_COLS], ?_⟩ <;>
    funext r k <;>
    rcases r with _ | _ | r <;> rcases k with _ | _ | _ | k <;>
    simp [matrix_fun, matrix_get, store_counter]

theorem COLS_array_get (col : Nat) (hc : col < NUM_COLS) :
    COLS_array[col]? = some (COLS_pin_n col) := by
  unfold NUM_COLS at hc
  interval_cases col <;> rfl

theorem ROWS_array_get (row : Nat) (hr : row < NUM_ROWS) :
    ∃ pin_n, ROWS_array[row]? = some pin_n := by
  unfold NUM_ROWS at hr
  interval_cases row
  · exact ⟨4, rfl⟩
  · exact ⟨5, rfl⟩

theorem scan_matrix_cell_checked_spec (pins : Nat → Nat → Nat) (dk : List (List Nat))
    (h : well_shaped dk) (row col : Nat) (hr : row < NUM_ROWS) (hc : col < NUM_COLS) :
    ∃ dk1, scan_matrix_cell_checked pins dk row col = some dk1 ∧ well_shaped dk1 ∧
      matrix_fun dk1 = scan_matrix_cell pins (matrix_fun dk) row col := by
  unfold scan_matrix_cell_checked scan_matrix_cell column_low
  rw [COLS_array_get col hc, matrix_get_shaped dk h row col hr hc]
  simp only
  by_cases hp : (pins row col &&& 1 <<< COLS_pin_n col == 0) = true
  · simp only [hp, if_true]
    by_cases hlt : matrix_fun dk row col < DEBOUNCE_THRESHOLD
    · simp only [hlt, if_true]
      exact matrix_set_shaped dk h row col _ hr hc
    · simp only [hlt, if_false]
      exact ⟨dk, rfl, h, rfl⟩
  · simp only [hp, if_false]
    by_cases hpos : matrix_fun dk row col > 0
    · simp only [hpos, if_true]
      exact matrix_set_shaped dk h row col _ hr hc
    · simp only [hpos, if_false]
      exact ⟨dk, rfl, h, rfl⟩

theorem scan_matrix_row_checked_spec (pins : Nat → Nat → Nat) (dk : List (List Nat))
    (h : well_shaped dk) (row : Nat) (hr : row < NUM_ROWS) :
    ∃ dk1, scan_matrix_row_checked pins dk row = some dk1 ∧ well_shaped dk1 ∧
      matrix_fun dk1 = scan_matrix_row pins (matrix_fun dk) row := by
  obtain ⟨pin_n, hpin⟩ := ROWS_array_get row hr
  unfold scan_matrix_row_checked scan_matrix_row
  rw [hpin]
  simp only
  refine fold_checked_sim (fun d col => scan_matrix_cell_checked pins d row col)
    (fun d col => scan_matrix_cell pins d row col)
    (fun d1 d2 => well_shaped d1 ∧ matrix_fun d1 = d2) (List.range NUM_COLS) ?_ dk
    (matrix_fun dk) ⟨h, rfl⟩
  intro col hcol d1 d2 hR
  obtain ⟨hs, rfl⟩ := hR
  exact scan_matrix_cell_checked_spec pins d1 hs row col hr (List.mem_range.mp hcol)

theorem scan_matrix_checked_spec (pins : Nat → Nat → Nat) (dk : List (List Nat))
    (h : well_shaped dk) :
    ∃ dk1, scan_matrix_checked pins dk = some dk1 ∧ well_shaped dk1 ∧
      matrix_fun dk1 = scan_matrix pins (matrix_fun dk) := by
  unfold scan_matrix_checked scan_matrix
  refine fold_checked_sim (fun d row => scan_matrix_row_checked pins d row)
    (fun d row => scan_matrix_row pins d row)
    (fun d1 d2 => well_shaped d1 ∧ matrix_fun d1 = d2) (List.range NUM_ROWS) ?_ dk
    (matrix_fun dk) ⟨h, rfl⟩
  intro row hrow d1 d2 hR
  obtain ⟨hs, rfl⟩ := hR
  exact scan_matrix_row_checked_spec pins d1 hs row (List.mem_range.mp hrow)

theorem is_key_pressed_checked_shaped (dk : List (List Nat)) (h : well_shaped dk)
    (row col : Nat) (hr : row < NUM_ROWS) (hc : col < NUM_COLS) :
    is_key_pressed_checked dk row col = some (is_key_pressed (matrix_fun dk) row col) := by
  have hr1 : row % 256 = row := Nat.mod_eq_of_lt (by unfold NUM_ROWS at hr; omega)
  have hc1 : col % 256 = col := Nat.mod_eq_of_lt (by unfold NUM_COLS at hc; omega)
  unfold is_key_pressed_checked is_key_pressed
  rw [hr1, hc1, matrix_get_shaped dk h row col hr hc]

theorem table_get_keycodes (sc : Scancodes) (layer row col : Nat)
    (hl : layer < 2) (hr : row < NUM_ROWS) (hc : col < NUM_COLS) :
    table_get (keycodes_array sc) layer row col = some (keycodes sc layer row col) := by
  unfold NUM_ROWS at hr
  unfold NUM_COLS at hc
  interval_cases layer <;> interval_cases row <;> interval_cases col <;> rfl

theorem set_ofFn (f : Fin 6 → Nat) (u v : Nat) :
    (List.ofFn f).set u v = List.ofFn (fun i : Fin 6 => if i.val = u then v else f i) := by
  apply List.ext_getElem
  · simp
  · intro i h1 h2
    have hi : i < 6 := by simpa using h2
    rw [List.getElem_set, List.getElem_ofFn, List.getElem_ofFn]
    by_cases hu : u = i
    · simp [hu]
    · have hu2 : ¬ i = u := fun e => hu e.symm
      simp [hu, hu2]

theorem CreateKeyboardReport_body_checked_spec (sc : Scancodes) (dk : List (List Nat))
    (h : well_shaped dk) (layer : Nat) (hl : layer < 2) (row col : Nat)
    (hr : row < NUM_ROWS) (hc : col < NUM_COLS) (stC : List Nat × Nat) (stT : BuildState)
    (hagree : build_agree stC stT) :
    ∃ st1, CreateKeyboardReport_body_checked (keycodes_array sc) dk layer stC row col =
        some st1 ∧
      build_agree st1
        (CreateKeyboardReport_body (keycodes sc) (matrix_fun dk) layer stT row col) := by
  obtain ⟨hk, hu⟩ := hagree
  unfold CreateKeyboardReport_body_checked CreateKeyboardReport_body
  rw [is_key_pressed_checked_shaped dk h row col hr hc]
  simp only
  rw [hu]
  by_cases hg : (is_key_pressed (matrix_fun dk) row col && decide (stT.UsedKeyCodes < 6)) = true
  · simp only [hg, if_true]
    by_cases h00 : row = 0 ∧ col = 0
    · simp only [h00, and_self, if_true]
      exact ⟨stC, rfl, hk, hu⟩
    · simp only [h00, if_false]
      rw [table_get_keycodes sc layer row col hl hr hc]
      simp only
      have h6 : stT.UsedKeyCodes < 6 := by
        rw [Bool.and_eq_true] at hg
        exact of_decide_eq_true hg.2
      have hlen : stT.UsedKeyCodes < stC.1.length := by
        rw [hk]
        simpa using h6
      simp only [hlen, if_true]
      refine ⟨_, rfl, ?_, rfl⟩
      simp only [KeyCode_store]
      rw [hk, set_ofFn]
  · simp only [hg, if_false]
    exact ⟨stC, rfl, hk, hu⟩

theorem CreateKeyboardReport_checked_spec (sc : Scancodes) (dk : List (List Nat))
    (h : well_shaped dk) (buf : USB_KeyboardReport_Data_t) :
    ∃ st, CreateKeyboardReport_checked sc dk = some st ∧
      build_agree st
        (CreateKeyboardReport_sized NUM_ROWS NUM_COLS (keycodes sc) (matrix_fun dk) buf) := by
  unfold CreateKeyboardReport_checked CreateKeyboardReport_sized CreateKeyboardReport_loop
    active_layer
  rw [is_key_pressed_checked_shaped dk h 0 0 (by decide) (by decide)]
  simp only
  have hl : (if is_key_pressed (matrix_fun dk) 0 0 = true then 1 else 0) < 2 := by
    split <;> decide
  generalize (if is_key_pressed (matrix_fun dk) 0 0 = true then 1 else 0) = layer at hl
  refine fold_checked_sim _ _ build_agree (List.range NUM_ROWS) ?_ _ _ ?_
  · intro row hrow stC stT hagree
    refine fold_checked_sim _ _ build_agree (List.range NUM_COLS) ?_ stC stT hagree
    intro col hcol stC2 stT2 hagree2
    exact CreateKeyboardReport_body_checked_spec sc dk h layer hl row col
      (List.mem_range.mp hrow) (List.mem_range.mp hcol) stC2 stT2 hagree2
  · refine ⟨?_, rfl⟩
    show List.replicate 6 0 = List.ofFn (fun _ : Fin 6 => 0)
    decide

/-! ## Claim on array bounds -/

/-- C18. All array accesses of the core are in bounds. In the embedding where every
access to `debounce_keys`, `keycodes`, `KeyCode`, `ROWS` and `COLS` returns an
option, for every debounce state, that is every `NUM_ROWS` by `NUM_COLS` array of
counters whatever their values, `CreateKeyboardReport` and `scan_matrix` never take
the out-of-range branch: both return a result, and that result is the one of the
unchecked functions, the scan leaving an array of the same shape. The layer index
is below the number of layers of `keycodes`. The checks are effective: on an array
with a row missing both checked functions fail. -/
theorem C18_accesses_in_bounds (sc : Scancodes) (pins : Nat → Nat → Nat)
    (dk : List (List Nat)) (buf : USB_KeyboardReport_Data_t) (h : well_shaped dk) :
    (∃ st, CreateKeyboardReport_checked sc dk = some st ∧
      st.1 = List.ofFn (CreateKeyboardReport sc (matrix_fun dk) buf).KeyCode ∧
      st.2 = (CreateKeyboardReport_sized NUM_ROWS NUM_COLS (keycodes sc) (matrix_fun dk)
        buf).UsedKeyCodes) ∧
    (∃ dk1, scan_matrix_checked pins dk = some dk1 ∧ well_shaped dk1 ∧
      matrix_fun dk1 = scan_matrix pins (matrix_fun dk)) ∧
    active_layer (matrix_fun dk) < (keycodes_array sc).length ∧
    scan_matrix_checked (fun _ _ => 0) [[0, 0, 0]] = none ∧
    CreateKeyboardReport_checked sc [[10, 0, 0]] = none := by
  have hlayers : (keycodes_array sc).length = 2 := rfl
  refine ⟨?_, scan_matrix_checked_spec pins dk h, ?_, by decide, rfl⟩
  · obtain ⟨st, hst, hk, hu⟩ := CreateKeyboardReport_checked_spec sc dk h buf
    exact ⟨st, hst, hk, hu⟩
  · rw [hlayers]
    unfold active_layer
    split <;> decide

/-- C18, on a matrix with two saturated counters and a counter of 255. -/
theorem C18_accesses_in_bounds_witness :
    ∃ dk1, scan_matrix_checked (pins_closed_at [(1, 1)]) [[10, 0, 255], [0, 10, 3]] =
        some dk1 ∧ well_shaped dk1 ∧
      matrix_fun dk1 =
        scan_matrix (pins_closed_at [(1, 1)]) (matrix_fun [[10, 0, 255], [0, 10, 3]]) :=
  (C18_accesses_in_bounds usage_codes (pins_closed_at [(1, 1)]) [[10, 0, 255], [0, 10, 3]]
    zero_report
    (by
      refine ⟨rfl, ?_⟩
      intro r hr
      simp only [List.mem_cons, List.mem_singleton, List.not_mem_nil, or_false] at hr
      rcases hr with rfl | rfl <;> rfl)).2.1

end Macropad
